import Mathlib

/-!
Verification development for the cafe-passport application
(src/project/views.py, src/project/forms.py, src/project/models.py).

The Python views are embedded shallowly: each request handler becomes a pure
Lean function from (acting user data, route parameters, decoded request body,
entity store) to (response, entity store).  Machine floats in the source are
modelled by rationals; decoded JSON scalars by the inductive JVal below;
fallible steps (Python exceptions) by Option/Except with the surrounding
try/except blocks becoming explicit match expressions.
-/

namespace CafePassport

/-- A decoded JSON / form scalar value as Python sees it after json.loads.
The str constructor carries both the raw string and the result of Python
float() applied to it (some q when the string parses as a float). -/
inductive JVal where
  | null : JVal
  | num (q : ℚ) : JVal
  | str (s : String) (numval : Option ℚ) : JVal
  | bool (b : Bool) : JVal
deriving DecidableEq, Repr

/-- Python float(v): numbers and numeric strings succeed, None and
non-numeric strings raise (TypeError / ValueError), booleans coerce. -/
def pyFloat : JVal → Option ℚ
  | .num q => some q
  | .str _ nv => nv
  | .bool b => some (if b then 1 else 0)
  | .null => none

/-- Python truthiness of a decoded JSON value. -/
def truthy : JVal → Bool
  | .null => false
  | .num q => q != 0
  | .str s _ => s != ""
  | .bool b => b

/-- A decoded JSON object (a Python dict from json.loads). -/
abbrev Dict := List (String × JVal)

/-- Python dict.get(k): the stored value, or None when the key is absent. -/
def dget (d : Dict) (k : String) : JVal :=
  match d.find? (fun p => p.1 == k) with
  | some p => p.2
  | none => .null

/-- Python dict.get(k, default): the stored value (even if None), or the
default when the key is absent. -/
def dgetD (d : Dict) (k : String) (dflt : JVal) : JVal :=
  match d.find? (fun p => p.1 == k) with
  | some p => p.2
  | none => dflt

/-! ## Entity store (models.py) -/

/-- Cafe (models.py): only the fields the verified handlers read. -/
structure Cafe where
  id : Nat
  name : String
deriving DecidableEq, Repr

/-- Visit (models.py): profile FK, cafe FK, scalar fields. -/
structure Visit where
  id : Nat
  profileId : Nat
  cafeId : Nat
  dateVisited : String
  userRating : ℚ
  amountSpent : ℚ
  notes : String
deriving DecidableEq, Repr

/-- VisitPhoto (models.py): visit FK, image, caption. -/
structure VisitPhoto where
  id : Nat
  visitId : Nat
  image : String
  caption : String
deriving DecidableEq, Repr

/-- FavoriteItem (models.py): visit FK, name, price, rating, description. -/
structure FavoriteItem where
  id : Nat
  visitId : Nat
  name : String
  price : ℚ
  rating : ℚ
  description : String
deriving DecidableEq, Repr

/-- ItemPhoto (models.py): favorite_item FK, image, caption. -/
structure ItemPhoto where
  id : Nat
  favoriteItemId : Nat
  image : String
  caption : String
deriving DecidableEq, Repr

/-- StickerType (models.py): unique name plus image, a read-only catalog. -/
structure StickerType where
  id : Nat
  name : String
  image : String
deriving DecidableEq, Repr

/-- Sticker (models.py): visit FK, type FK, 2D transform, copied image. -/
structure Sticker where
  id : Nat
  visitId : Nat
  typeId : Nat
  xPosition : ℚ
  yPosition : ℚ
  rotation : ℚ
  scale : ℚ
  image : Option String
deriving DecidableEq, Repr

/-- CafeWish (models.py): (profile, cafe) pair, unique together. -/
structure CafeWish where
  id : Nat
  profileId : Nat
  cafeId : Nat
  visited : Bool
deriving DecidableEq, Repr

/-- The relational entity store: one list per table plus autoincrement
counters for primary keys. -/
structure Store where
  cafes : List Cafe
  visits : List Visit
  visitPhotos : List VisitPhoto
  favoriteItems : List FavoriteItem
  itemPhotos : List ItemPhoto
  stickers : List Sticker
  stickerTypes : List StickerType
  wishes : List CafeWish
  nextVisitId : Nat
  nextVisitPhotoId : Nat
  nextItemId : Nat
  nextItemPhotoId : Nat
  nextStickerId : Nat
  nextWishId : Nat
deriving DecidableEq, Repr

/-- Pk lookup for Visit: QuerySet pk lookup coerces numeric strings; a pk
that is not an integer raises, which every caller folds into its error
branch, so it is modelled as a failed lookup. -/
def findVisitByPk (db : Store) (jv : JVal) : Option Visit :=
  match pyFloat jv with
  | some q => db.visits.find? (fun v => (v.id : ℚ) == q)
  | none => none

/-- StickerType lookup by unique name (get_object_or_404(StickerType, name=...)). -/
def findStickerTypeByName (db : Store) (jv : JVal) : Option StickerType :=
  match jv with
  | .str s _ => db.stickerTypes.find? (fun t => t.name == s)
  | _ => none

/-- Pk lookup for Sticker. -/
def findStickerByPk (db : Store) (jv : JVal) : Option Sticker :=
  match pyFloat jv with
  | some q => db.stickers.find? (fun s => (s.id : ℚ) == q)
  | none => none

/-- Pk lookup for Cafe by a route parameter (already an integer). -/
def findCafeByPk (db : Store) (pk : Nat) : Option Cafe :=
  db.cafes.find? (fun c => c.id == pk)

/-! ## Sticker controller (views.py: PlaceStickerView, UpdateStickerView,
StickerDeleteView) -/

/-- Response of PlaceStickerView.post: success JSON with the new sticker id,
or the generic error JSON with an HTTP status (400 for every exception). -/
inductive PlaceResp where
  | success (id : Nat) : PlaceResp
  | error (status : Nat) : PlaceResp
deriving DecidableEq, Repr

/-- PlaceStickerView.post (views.py lines 391-432).  The request body is
none when json.loads raises.  Inside the try block the handler computes the
four floats (x and y defaulting to 0.0, rotation to 0.0, scale to 1.0 when
the key is absent), resolves the Visit and the StickerType, then creates the
Sticker copying the StickerType's image; any exception is caught and turned
into a 400 error JSON with no write. -/
def placeStickerPost (db : Store) (body : Option Dict) : PlaceResp × Store :=
  match body with
  | none => (.error 400, db)
  | some data =>
    match pyFloat (dgetD data "x" (.num 0)), pyFloat (dgetD data "y" (.num 0)),
          pyFloat (dgetD data "rotation" (.num 0)), pyFloat (dgetD data "scale" (.num 1)) with
    | some x, some y, some rot, some sc =>
      match findVisitByPk db (dget data "visit_id") with
      | none => (.error 400, db)
      | some visit =>
        match findStickerTypeByName db (dget data "sticker_type") with
        | none => (.error 400, db)
        | some stype =>
          let s : Sticker :=
            { id := db.nextStickerId, visitId := visit.id, typeId := stype.id,
              xPosition := x, yPosition := y, rotation := rot, scale := sc,
              image := some stype.image }
          (.success db.nextStickerId,
           { db with stickers := db.stickers ++ [s],
                     nextStickerId := db.nextStickerId + 1 })
    | _, _, _, _ => (.error 400, db)

/-- Response of UpdateStickerView.post: bare success JSON or error JSON. -/
inductive UpdateResp where
  | success : UpdateResp
  | error (status : Nat) : UpdateResp
deriving DecidableEq, Repr

/-- UpdateStickerView.post (views.py lines 444-462).  Resolves the sticker,
then coerces the four fields with float(data.get(k)) — no defaults, so a
missing key yields None and float raises; the save only happens after all
four coercions succeed, and any exception is caught into a 400 error JSON
leaving the store untouched. -/
def updateStickerPost (db : Store) (body : Option Dict) : UpdateResp × Store :=
  match body with
  | none => (.error 400, db)
  | some data =>
    match findStickerByPk db (dget data "sticker_id") with
    | none => (.error 400, db)
    | some sticker =>
      match pyFloat (dget data "x"), pyFloat (dget data "y"),
            pyFloat (dget data "rotation"), pyFloat (dget data "scale") with
      | some x, some y, some rot, some sc =>
        let upd : Sticker :=
          { sticker with xPosition := x, yPosition := y, rotation := rot, scale := sc }
        (.success,
         { db with stickers :=
             db.stickers.map (fun s => if s.id == sticker.id then upd else s) })
      | _, _, _, _ => (.error 400, db)

/-- Response of StickerDeleteView.post: HttpResponseBadRequest (plain 400),
success JSON, or error JSON with status 500. -/
inductive DeleteResp where
  | badRequest : DeleteResp
  | success : DeleteResp
  | error (status : Nat) : DeleteResp
deriving DecidableEq, Repr

/-- StickerDeleteView.post (views.py lines 468-491).  Malformed JSON gives
HttpResponseBadRequest; a falsy sticker_id gives HttpResponseBadRequest; the
lookup raises Http404 when absent, which the surrounding except Exception
turns into the error JSON with status 500; on success the sticker row is
deleted. -/
def stickerDeletePost (db : Store) (body : Option Dict) : DeleteResp × Store :=
  match body with
  | none => (.badRequest, db)
  | some data =>
    let sid := dget data "sticker_id"
    if ¬ truthy sid then
      (.badRequest, db)
    else
      match findStickerByPk db sid with
      | none => (.error 500, db)
      | some sticker =>
        (.success,
         { db with stickers := db.stickers.filter (fun s => s.id != sticker.id) })

/-! ## Wishlist (views.py: AddToWishlistView) -/

/-- Response of AddToWishlistView.post: a 404 abort when the route cafe does
not exist, or a redirect carrying either the success message (wish created)
or the info message (cafe already on the wishlist). -/
inductive WishResp where
  | notFound : WishResp
  | success : WishResp
  | info : WishResp
deriving DecidableEq, Repr

/-- Number of Wish rows stored for a (profile, cafe) pair. -/
def countWishes (db : Store) (profileId cafePk : Nat) : Nat :=
  (db.wishes.filter (fun w => w.profileId == profileId && w.cafeId == cafePk)).length

/-- AddToWishlistView.post (views.py lines 865-878): resolves the cafe from
the route, checks whether a CafeWish for (profile, cafe) already exists, and
creates one only if not, otherwise leaves the store untouched and reports
the info message. -/
def addToWishlistPost (db : Store) (profileId cafePk : Nat) : WishResp × Store :=
  match findCafeByPk db cafePk with
  | none => (.notFound, db)
  | some cafe =>
    if db.wishes.any (fun w => w.profileId == profileId && w.cafeId == cafe.id) then
      (.info, db)
    else
      (.success,
       { db with
           wishes := db.wishes ++
             [{ id := db.nextWishId, profileId := profileId,
                cafeId := cafe.id, visited := false }],
           nextWishId := db.nextWishId + 1 })

/-! ## Protocol B: LogCafeVisitView.post (views.py lines 629-726)

The JSON payload of dynamic_data is decoded into the structures below; an
Option field is none when the key is absent from the JSON object (Python
dict.get returning None).  Scalar POST fields are likewise none when absent
or undecodable.  Inside the transaction every create that would insert NULL
into a NOT NULL column (models.py: every scalar column of Visit,
FavoriteItem, VisitPhoto.caption, ItemPhoto.caption is NOT NULL) raises
IntegrityError, modelled as the error branch. -/

/-- One entry of visitPhotos or of an item's photos in dynamic_data. -/
structure BPhoto where
  fileKey : Option String
  caption : Option String
deriving DecidableEq, Repr

/-- One entry of favoriteItems in dynamic_data. -/
structure BItem where
  name : Option String
  price : Option ℚ
  rating : Option ℚ
  description : Option String
  photos : List BPhoto
deriving DecidableEq, Repr

/-- The decoded dynamic_data JSON document. -/
structure BDynamic where
  visitPhotos : List BPhoto
  favoriteItems : List BItem
deriving DecidableEq, Repr

/-- A Protocol B request.  dynamicData is none when the POST field is absent
or empty, some none when present but not valid JSON, some (some d) when it
parses.  files is the set of uploaded file keys (request.FILES).  The
clientProfileId and clientCafeId fields model profile/cafe values a client
might put in the body: the handler never reads them. -/
structure BRequest where
  dynamicData : Option (Option BDynamic)
  files : List String
  dateVisited : Option String
  userRating : Option ℚ
  amountSpent : Option ℚ
  notes : Option String
  clientProfileId : Option Nat
  clientCafeId : Option Nat
deriving DecidableEq, Repr

/-- The only exception kind modelled inside the atomic block: a database
integrity fault (NULL into a NOT NULL column). -/
inductive DbErr where
  | integrity : DbErr
deriving DecidableEq, Repr

/-- Visit.objects.create inside LogCafeVisitView (views.py lines 654-661):
profile and cafe come from the acting user and the route; the four scalar
fields come from POST and a missing one inserts NULL, raising
IntegrityError. -/
def createVisitB (db : Store) (profileId cafeId : Nat) (req : BRequest) :
    Except DbErr (Visit × Store) :=
  match req.dateVisited, req.userRating, req.amountSpent, req.notes with
  | some dt, some r, some a, some n =>
    let v : Visit :=
      { id := db.nextVisitId, profileId := profileId, cafeId := cafeId,
        dateVisited := dt, userRating := r, amountSpent := a, notes := n }
    .ok (v, { db with visits := db.visits ++ [v], nextVisitId := db.nextVisitId + 1 })
  | _, _, _, _ => .error .integrity

/-- The guard of views.py line 668 / 695: the entry is processed only when
its file_key is truthy and names an uploaded file. -/
def keepPhotoB (files : List String) (p : BPhoto) : Bool :=
  match p.fileKey with
  | some k => k != "" && files.contains k
  | none => false

/-- The visitPhotos loop (views.py lines 664-673): entries whose file_key
does not resolve are skipped; a processed entry with no caption inserts
NULL, raising IntegrityError. -/
def processVisitPhotosB (files : List String) (visitId : Nat) :
    List BPhoto → Store → Except DbErr Store
  | [], db => .ok db
  | p :: rest, db =>
    if keepPhotoB files p then
      match p.caption with
      | some cap =>
        processVisitPhotosB files visitId rest
          { db with
              visitPhotos := db.visitPhotos ++
                [{ id := db.nextVisitPhotoId, visitId := visitId,
                   image := p.fileKey.getD "", caption := cap }],
              nextVisitPhotoId := db.nextVisitPhotoId + 1 }
      | none => .error .integrity
    else
      processVisitPhotosB files visitId rest db

/-- The nested item-photo loop (views.py lines 691-700), same shape as the
visit-photo loop but creating ItemPhoto rows for one FavoriteItem. -/
def processItemPhotosB (files : List String) (itemId : Nat) :
    List BPhoto → Store → Except DbErr Store
  | [], db => .ok db
  | p :: rest, db =>
    if keepPhotoB files p then
      match p.caption with
      | some cap =>
        processItemPhotosB files itemId rest
          { db with
              itemPhotos := db.itemPhotos ++
                [{ id := db.nextItemPhotoId, favoriteItemId := itemId,
                   image := p.fileKey.getD "", caption := cap }],
              nextItemPhotoId := db.nextItemPhotoId + 1 }
      | none => .error .integrity
    else
      processItemPhotosB files itemId rest db

/-- The guard of views.py line 678: "if not item_data.get('name'): continue".
A missing name is None (falsy) and an empty string is falsy. -/
def itemNameBlank (it : BItem) : Bool :=
  match it.name with
  | none => true
  | some s => s == ""

/-- The favoriteItems loop (views.py lines 676-700): entries with a blank
name are skipped entirely; otherwise a FavoriteItem is created (missing
price, rating or description inserts NULL, raising IntegrityError) and its
photos entries are processed against the new item's pk. -/
def processItemsB (files : List String) (visitId : Nat) :
    List BItem → Store → Except DbErr Store
  | [], db => .ok db
  | it :: rest, db =>
    if itemNameBlank it then
      processItemsB files visitId rest db
    else
      match it.name, it.price, it.rating, it.description with
      | some nm, some pr, some ra, some de =>
        let fi : FavoriteItem :=
          { id := db.nextItemId, visitId := visitId, name := nm,
            price := pr, rating := ra, description := de }
        let db1 := { db with favoriteItems := db.favoriteItems ++ [fi],
                             nextItemId := db.nextItemId + 1 }
        match processItemPhotosB files fi.id it.photos db1 with
        | .ok db2 => processItemsB files visitId rest db2
        | .error e => .error e
      | _, _, _, _ => .error .integrity

/-- Response of LogCafeVisitView.post.  serverError covers the generic
except Exception branch (status 500), which also catches the Http404 raised
when the route cafe does not exist; dbError is the IntegrityError branch
(status 500); missingPayload and badJson are the two 400 branches. -/
inductive BResp where
  | success (visitId : Nat) : BResp
  | missingPayload : BResp
  | badJson : BResp
  | dbError : BResp
  | serverError : BResp
deriving DecidableEq, Repr

/-- LogCafeVisitView.post (views.py lines 632-726): resolve the cafe, check
the dynamic_data payload, then run the whole nested create inside
transaction.atomic — any exception escapes the block, the transaction rolls
back (store unchanged) and the matching except clause picks the response. -/
def logCafeVisitPost (db : Store) (profileId cafePk : Nat) (req : BRequest) :
    BResp × Store :=
  match findCafeByPk db cafePk with
  | none => (.serverError, db)
  | some cafe =>
    match req.dynamicData with
    | none => (.missingPayload, db)
    | some none => (.badJson, db)
    | some (some dyn) =>
      match createVisitB db profileId cafe.id req with
      | .error _ => (.dbError, db)
      | .ok (v, db1) =>
        match processVisitPhotosB req.files v.id dyn.visitPhotos db1 with
        | .error _ => (.dbError, db)
        | .ok db2 =>
          match processItemsB req.files v.id dyn.favoriteItems db2 with
          | .error _ => (.dbError, db)
          | .ok db3 => (.success v.id, db3)

/-! ## Protocol A: forms.py formsets and VisitCreateView (views.py 494-623)

Django binds one sub-form per management-form slot; an extra form the user
left untouched has empty_permitted set and has_changed false, so it skips
field validation and produces empty cleaned_data.  A bound sub-form is
therefore either empty or filled with its field data. -/

/-- A bound form inside a formset: left empty, or filled with data δ. -/
inductive FormEntry (δ : Type) where
  | empty : FormEntry δ
  | filled (d : δ) : FormEntry δ
deriving DecidableEq, Repr

/-- VisitForm data (forms.py lines 89-110): required date, required rating
restricted to [0,5], optional amount restricted to ≥ 0, free notes.  A none
field models an absent or undecodable submission value. -/
structure VisitFormData where
  dateVisited : Option String
  userRating : Option ℚ
  amountSpent : Option ℚ
  notes : String
deriving DecidableEq, Repr

/-- VisitForm.is_valid. -/
def visitFormIsValid (f : VisitFormData) : Bool :=
  f.dateVisited.isSome &&
  (match f.userRating with
   | some r => decide (0 ≤ r) && decide (r ≤ 5)
   | none => false) &&
  (match f.amountSpent with
   | some a => decide (0 ≤ a)
   | none => true)

/-- VisitPhotoForm / ItemPhotoForm data (forms.py lines 114-137): required
image, optional caption, plus the DELETE checkbox the formset adds
(can_delete is on by default for inline formsets). -/
structure PhotoFormData where
  image : Option String
  caption : String
  delete : Bool
deriving DecidableEq, Repr

/-- Field validity of a filled photo form: the ImageField is required. -/
def photoFormIsValid (d : PhotoFormData) : Bool := d.image.isSome

/-- FavoriteItemForm data (forms.py lines 140-150): required name, price and
rating, optional description, plus the DELETE checkbox. -/
structure ItemFormData where
  name : String
  price : Option ℚ
  rating : Option ℚ
  description : String
  delete : Bool
deriving DecidableEq, Repr

/-- Field validity of a filled favorite-item form. -/
def itemFormIsValid (d : ItemFormData) : Bool :=
  d.name != "" && d.price.isSome && d.rating.isSome

/-- The factory arguments of forms.py lines 155-167: inlineformset_factory
is called with max_num only, so validate_max keeps its default False and
absolute_max its default max_num + 1000. -/
structure FormSetCfg where
  maxNum : Nat
  validateMax : Bool
deriving DecidableEq, Repr

/-- Django's absolute_max default. -/
def FormSetCfg.absoluteMax (cfg : FormSetCfg) : Nat := cfg.maxNum + 1000

/-- DELETE flag of a bound form (empty cleaned_data gives False). -/
def entryDeleted {δ : Type} (del : δ → Bool) : FormEntry δ → Bool
  | .empty => false
  | .filled d => del d

/-- Field validity of a bound form (empty forms validate trivially). -/
def entryValid {δ : Type} (valid : δ → Bool) : FormEntry δ → Bool
  | .empty => true
  | .filled d => valid d

/-- BaseFormSet.is_valid for a bound formset as configured by forms.py:
every form not flagged for deletion must be field-valid (deleted forms'
errors are skipped); the max_num bound is checked only when validate_max is
set, and the management-form total is checked against absolute_max. -/
def formsetIsValid {δ : Type} (cfg : FormSetCfg) (valid del : δ → Bool)
    (forms : List (FormEntry δ)) : Bool :=
  (forms.all (fun f => entryDeleted del f || entryValid valid f)) &&
  !(cfg.validateMax &&
      decide (forms.length - (forms.filter (entryDeleted del)).length > cfg.maxNum)) &&
  !(decide (forms.length > cfg.absoluteMax))

/-- VisitPhotoFormSet (forms.py lines 155-157): max_num 5, validate_max off. -/
def visitPhotoFormSetCfg : FormSetCfg := { maxNum := 5, validateMax := false }

/-- ItemPhotoFormSetFactory (forms.py lines 160-162): max_num 2. -/
def itemPhotoFormSetCfg : FormSetCfg := { maxNum := 2, validateMax := false }

/-- FavoriteItemFormSet (forms.py lines 165-167): max_num 3. -/
def favoriteItemFormSetCfg : FormSetCfg := { maxNum := 3, validateMax := false }

/-- VisitPhotoFormSet.is_valid. -/
def visitPhotoFormSetIsValid (forms : List (FormEntry PhotoFormData)) : Bool :=
  formsetIsValid visitPhotoFormSetCfg photoFormIsValid (fun d => d.delete) forms

/-- A nested ItemPhotoFormSetFactory instance's is_valid. -/
def itemPhotoFormSetIsValid (forms : List (FormEntry PhotoFormData)) : Bool :=
  formsetIsValid itemPhotoFormSetCfg photoFormIsValid (fun d => d.delete) forms

/-- FavoriteItemFormSet.is_valid. -/
def favoriteItemFormSetIsValid (forms : List (FormEntry ItemFormData)) : Bool :=
  formsetIsValid favoriteItemFormSetCfg itemFormIsValid (fun d => d.delete) forms

/-- One favorite-item slot of a Protocol A submission: the bound item form
together with its nested item-photo formset (prefix item_photos-i, attached
to every rendered form by VisitCreateView.get_context_data). -/
structure ItemEntry where
  form : FormEntry ItemFormData
  nestedPhotos : List (FormEntry PhotoFormData)
deriving DecidableEq, Repr

/-- item_form.cleaned_data.get('DELETE', False). -/
def itemEntryDeleted (e : ItemEntry) : Bool :=
  match e.form with
  | .empty => false
  | .filled d => d.delete

/-- The nested-validation loop of VisitCreateView.form_valid (views.py lines
563-571): walk the item forms in order, skip forms flagged for deletion,
validate each remaining form's nested photo formset and break on the first
invalid one.  Returns the overall flag and the zero-based indices of the
item entries whose nested formset was actually inspected, in order. -/
def checkNestedFormsets : Nat → List ItemEntry → Bool × List Nat
  | _, [] => (true, [])
  | i, e :: rest =>
    if itemEntryDeleted e then
      checkNestedFormsets (i + 1) rest
    else if itemPhotoFormSetIsValid e.nestedPhotos then
      let r := checkNestedFormsets (i + 1) rest
      (r.1, i :: r.2)
    else
      (false, [i])

/-- A Protocol A submission: the main form, the two top-level formsets with
the nested photo formsets attached to the item slots, and the ignored
client-supplied profile/cafe body values (VisitForm's Meta.fields excludes
profile and cafe, so a ModelForm never reads them from POST). -/
structure ARequest where
  visitForm : VisitFormData
  visitPhotos : List (FormEntry PhotoFormData)
  items : List ItemEntry
  clientProfileId : Option Nat
  clientCafeId : Option Nat
deriving DecidableEq, Repr

/-- Response of VisitCreateView for a POST: 404 when the route cafe is
absent (dispatch), a re-render with field errors, a re-render after the
nested check failed (carrying the indices the check inspected), a 500 when
an exception aborts the atomic block, or the success redirect to the new
visit. -/
inductive AResp where
  | notFound : AResp
  | formErrors : AResp
  | nestedErrors (inspected : List Nat) : AResp
  | serverError : AResp
  | redirect (visitId : Nat) : AResp
deriving DecidableEq, Repr

/-- form.save(commit=False) followed by the owner/cafe assignment and save
(views.py lines 581-584).  amount_spent is optional on the form but NOT
NULL on the model, so a blank amount inserts NULL and raises IntegrityError
inside the atomic block. -/
def createVisitA (db : Store) (profileId cafeId : Nat) (f : VisitFormData) :
    Except Unit (Visit × Store) :=
  match f.dateVisited, f.userRating, f.amountSpent with
  | some dt, some r, some a =>
    let v : Visit :=
      { id := db.nextVisitId, profileId := profileId, cafeId := cafeId,
        dateVisited := dt, userRating := r, amountSpent := a, notes := f.notes }
    .ok (v, { db with visits := db.visits ++ [v], nextVisitId := db.nextVisitId + 1 })
  | _, _, _ => .error ()

/-- visit_photo_formset.save() in create mode (views.py lines 587-588):
each filled form not flagged for deletion becomes a new VisitPhoto row;
BaseModelFormSet.save skips new forms flagged for deletion. -/
def saveVisitPhotoFormset (visitId : Nat) :
    List (FormEntry PhotoFormData) → Store → Store
  | [], db => db
  | .empty :: rest, db => saveVisitPhotoFormset visitId rest db
  | .filled d :: rest, db =>
    if d.delete then
      saveVisitPhotoFormset visitId rest db
    else
      saveVisitPhotoFormset visitId rest
        { db with
            visitPhotos := db.visitPhotos ++
              [{ id := db.nextVisitPhotoId, visitId := visitId,
                 image := d.image.getD "", caption := d.caption }],
            nextVisitPhotoId := db.nextVisitPhotoId + 1 }

/-- nested_photo_formset.save() after its instance is pointed at the new
FavoriteItem (views.py lines 601-605). -/
def saveItemPhotoFormset (itemId : Nat) :
    List (FormEntry PhotoFormData) → Store → Store
  | [], db => db
  | .empty :: rest, db => saveItemPhotoFormset itemId rest db
  | .filled d :: rest, db =>
    if d.delete then
      saveItemPhotoFormset itemId rest db
    else
      saveItemPhotoFormset itemId rest
        { db with
            itemPhotos := db.itemPhotos ++
              [{ id := db.nextItemPhotoId, favoriteItemId := itemId,
                 image := d.image.getD "", caption := d.caption }],
            nextItemPhotoId := db.nextItemPhotoId + 1 }

/-- The favorite-item save loop of VisitCreateView.form_valid (views.py
lines 591-609).  Forms with data and no DELETE flag are saved with their
nested photo formset; a form with data and the DELETE flag reaches
item_form.instance.delete(), and in create mode the instance was never
saved (pk is None) so Model.delete raises ValueError — modelled as the
error branch, aborting the atomic block. -/
def saveItemsA (visitId : Nat) : List ItemEntry → Store → Except Unit Store
  | [], db => .ok db
  | e :: rest, db =>
    match e.form with
    | .empty => saveItemsA visitId rest db
    | .filled d =>
      if d.delete then
        .error ()
      else
        let fi : FavoriteItem :=
          { id := db.nextItemId, visitId := visitId, name := d.name,
            price := d.price.getD 0, rating := d.rating.getD 0,
            description := d.description }
        let db1 := { db with favoriteItems := db.favoriteItems ++ [fi],
                             nextItemId := db.nextItemId + 1 }
        saveItemsA visitId rest (saveItemPhotoFormset fi.id e.nestedPhotos db1)

/-- VisitCreateView handling a POST (views.py lines 494-623): dispatch
resolves the route cafe (404 when absent); form_valid validates the main
form and the two top-level formsets, short-circuiting in that order, then
runs the nested check; on full validity it saves everything inside one
atomic transaction, assigning the visit's profile from the acting user and
its cafe from the route; an exception inside the block rolls the whole
write back. -/
def visitCreatePost (db : Store) (profileId cafePk : Nat) (req : ARequest) :
    AResp × Store :=
  match findCafeByPk db cafePk with
  | none => (.notFound, db)
  | some cafe =>
    if ¬ visitFormIsValid req.visitForm then (.formErrors, db)
    else if ¬ visitPhotoFormSetIsValid req.visitPhotos then (.formErrors, db)
    else if ¬ favoriteItemFormSetIsValid (req.items.map (fun e => e.form)) then
      (.formErrors, db)
    else
      match checkNestedFormsets 0 req.items with
      | (false, inspected) => (.nestedErrors inspected, db)
      | (true, _) =>
        match createVisitA db profileId cafe.id req.visitForm with
        | .error _ => (.serverError, db)
        | .ok (v, db1) =>
          let db2 := saveVisitPhotoFormset v.id req.visitPhotos db1
          match saveItemsA v.id req.items db2 with
          | .ok db3 => (.redirect v.id, db3)
          | .error _ => (.serverError, db)

/-! ## Protocol A update mode: VisitUpdateView (views.py lines 890-1010)

An update-mode bound inline formset manages the existing rows of the
visit: one initial form per existing related row (bound to that row's pk
and carrying the submitted, cleaned field values — for a required
FileField with no new upload the effective cleaned value is the stored
image) plus extra forms for new rows. -/

/-- A bound sub-form of an update-mode formset: an initial form addressing
an existing row, or an extra form (empty or filled) for a new row. -/
inductive UFormEntry (δ : Type) where
  | initial (pk : Nat) (d : δ) : UFormEntry δ
  | extraEmpty : UFormEntry δ
  | extraFilled (d : δ) : UFormEntry δ
deriving DecidableEq, Repr

/-- DELETE flag of an update-mode bound form (empty extras give False). -/
def uEntryDeleted {δ : Type} (del : δ → Bool) : UFormEntry δ → Bool
  | .initial _ d => del d
  | .extraEmpty => false
  | .extraFilled d => del d

/-- Field validity of an update-mode bound form (empty extras validate). -/
def uEntryValid {δ : Type} (valid : δ → Bool) : UFormEntry δ → Bool
  | .initial _ d => valid d
  | .extraEmpty => true
  | .extraFilled d => valid d

/-- BaseFormSet.is_valid for an update-mode bound formset — the same Django
logic as formsetIsValid: non-deleted forms must be field-valid, max_num is
checked only under validate_max, the total against absolute_max. -/
def uFormsetIsValid {δ : Type} (cfg : FormSetCfg) (valid del : δ → Bool)
    (forms : List (UFormEntry δ)) : Bool :=
  (forms.all (fun f => uEntryDeleted del f || uEntryValid valid f)) &&
  !(cfg.validateMax &&
      decide (forms.length - (forms.filter (uEntryDeleted del)).length > cfg.maxNum)) &&
  !(decide (forms.length > cfg.absoluteMax))

/-- VisitPhotoFormSet.is_valid bound to an existing visit. -/
def uVisitPhotoFormSetIsValid (forms : List (UFormEntry PhotoFormData)) : Bool :=
  uFormsetIsValid visitPhotoFormSetCfg photoFormIsValid (fun d => d.delete) forms

/-- A nested ItemPhotoFormSetFactory instance's is_valid in update mode. -/
def uItemPhotoFormSetIsValid (forms : List (UFormEntry PhotoFormData)) : Bool :=
  uFormsetIsValid itemPhotoFormSetCfg photoFormIsValid (fun d => d.delete) forms

/-- FavoriteItemFormSet.is_valid bound to an existing visit. -/
def uFavoriteItemFormSetIsValid (forms : List (UFormEntry ItemFormData)) : Bool :=
  uFormsetIsValid favoriteItemFormSetCfg itemFormIsValid (fun d => d.delete) forms

/-- One favorite-item slot of an update submission: the bound item form
plus its nested photo formset.  VisitUpdateView.get_context_data (views.py
line 924) attaches a nested formset only to forms whose instance has a pk,
so the nested list is meaningful only for initial slots; extra slots carry
no attached formset and their list is ignored everywhere. -/
structure UItemEntry where
  form : UFormEntry ItemFormData
  nestedPhotos : List (UFormEntry PhotoFormData)
deriving DecidableEq, Repr

/-- item_form.cleaned_data.get('DELETE', False) in update mode. -/
def uItemEntryDeleted (e : UItemEntry) : Bool :=
  match e.form with
  | .initial _ d => d.delete
  | .extraEmpty => false
  | .extraFilled d => d.delete

/-- hasattr(item_form, 'nested_photo_formset') in update mode: true exactly
for the forms bound to an existing item. -/
def uItemEntryHasNested (e : UItemEntry) : Bool :=
  match e.form with
  | .initial _ _ => true
  | _ => false

/-- The nested-validation loop of VisitUpdateView.form_valid (views.py
lines 957-964): the same walk-and-break-on-first-failure as the create
view, but a form is inspected only when it is not flagged for deletion AND
has a nested formset attached (existing items only).  Returns the flag and
the indices of the inspected entries. -/
def uCheckNestedFormsets : Nat → List UItemEntry → Bool × List Nat
  | _, [] => (true, [])
  | i, e :: rest =>
    if !uItemEntryDeleted e && uItemEntryHasNested e then
      if uItemPhotoFormSetIsValid e.nestedPhotos then
        let r := uCheckNestedFormsets (i + 1) rest
        (r.1, i :: r.2)
      else (false, [i])
    else uCheckNestedFormsets (i + 1) rest

/-- visit_photo_formset.save() in update mode (views.py line 976):
delete-flagged initial forms delete their row, the other initial forms
overwrite their row's fields, filled extra forms without the DELETE flag
create new rows (BaseModelFormSet.save: save_existing_objects then
save_new_objects). -/
def uSaveVisitPhotoFormset (visitId : Nat) :
    List (UFormEntry PhotoFormData) → Store → Store
  | [], db => db
  | .initial pk d :: rest, db =>
    if d.delete then
      uSaveVisitPhotoFormset visitId rest
        { db with visitPhotos := db.visitPhotos.filter (fun p => p.id != pk) }
    else
      uSaveVisitPhotoFormset visitId rest
        { db with visitPhotos := db.visitPhotos.map (fun p =>
            if p.id == pk then { p with image := d.image.getD "", caption := d.caption }
            else p) }
  | .extraEmpty :: rest, db => uSaveVisitPhotoFormset visitId rest db
  | .extraFilled d :: rest, db =>
    if d.delete then uSaveVisitPhotoFormset visitId rest db
    else
      uSaveVisitPhotoFormset visitId rest
        { db with
            visitPhotos := db.visitPhotos ++
              [{ id := db.nextVisitPhotoId, visitId := visitId,
                 image := d.image.getD "", caption := d.caption }],
            nextVisitPhotoId := db.nextVisitPhotoId + 1 }

/-- nested_photo_formset.save() in update mode (views.py lines 989-992):
same shape on the ItemPhoto table; created rows attach to the item the
formset instance points at, updated rows keep their stored item. -/
def uSaveItemPhotoFormset (itemId : Nat) :
    List (UFormEntry PhotoFormData) → Store → Store
  | [], db => db
  | .initial pk d :: rest, db =>
    if d.delete then
      uSaveItemPhotoFormset itemId rest
        { db with itemPhotos := db.itemPhotos.filter (fun p => p.id != pk) }
    else
      uSaveItemPhotoFormset itemId rest
        { db with itemPhotos := db.itemPhotos.map (fun p =>
            if p.id == pk then { p with image := d.image.getD "", caption := d.caption }
            else p) }
  | .extraEmpty :: rest, db => uSaveItemPhotoFormset itemId rest db
  | .extraFilled d :: rest, db =>
    if d.delete then uSaveItemPhotoFormset itemId rest db
    else
      uSaveItemPhotoFormset itemId rest
        { db with
            itemPhotos := db.itemPhotos ++
              [{ id := db.nextItemPhotoId, favoriteItemId := itemId,
                 image := d.image.getD "", caption := d.caption }],
            nextItemPhotoId := db.nextItemPhotoId + 1 }

/-- The favorite-item loop of VisitUpdateView.form_valid (views.py lines
979-997): forms with data and no DELETE flag are saved — an update for
existing rows, an insert for new ones — and, for existing items only, their
nested photo formset is saved; delete-flagged forms with an existing
instance delete the row, which cascades to its ItemPhotos (FavoriteItem →
ItemPhoto is on_delete CASCADE); delete-flagged new forms are skipped by
the pk guard of line 996, so unlike the create view nothing raises here. -/
def uSaveItemsA (visitId : Nat) : List UItemEntry → Store → Store
  | [], db => db
  | e :: rest, db =>
    match e.form with
    | .extraEmpty => uSaveItemsA visitId rest db
    | .extraFilled d =>
      if d.delete then uSaveItemsA visitId rest db
      else
        uSaveItemsA visitId rest
          { db with
              favoriteItems := db.favoriteItems ++
                [{ id := db.nextItemId, visitId := visitId, name := d.name,
                   price := d.price.getD 0, rating := d.rating.getD 0,
                   description := d.description }],
              nextItemId := db.nextItemId + 1 }
    | .initial pk d =>
      if d.delete then
        uSaveItemsA visitId rest
          { db with
              favoriteItems := db.favoriteItems.filter (fun f => f.id != pk),
              itemPhotos := db.itemPhotos.filter (fun p => p.favoriteItemId != pk) }
      else
        uSaveItemsA visitId rest
          (uSaveItemPhotoFormset pk e.nestedPhotos
            { db with favoriteItems := db.favoriteItems.map (fun f =>
                if f.id == pk then { f with visitId := visitId, name := d.name, price := d.price.getD 0, rating := d.rating.getD 0, description := d.description }
                else f) })

/-- A Protocol A update submission: the main form, the two update-mode
formsets with nested photo formsets on the existing-item slots, and the
ignored client-supplied owner fields (VisitForm's Meta.fields excludes
profile and cafe in update mode too). -/
structure UARequest where
  visitForm : VisitFormData
  visitPhotos : List (UFormEntry PhotoFormData)
  items : List UItemEntry
  clientProfileId : Option Nat
  clientCafeId : Option Nat
deriving DecidableEq, Repr

/-- Pk lookup for the update view's target visit (UpdateView.get_object on
the default queryset). -/
def findVisitById (db : Store) (pk : Nat) : Option Visit :=
  db.visits.find? (fun v => v.id == pk)

/-- VisitUpdateView handling a POST (views.py lines 890-1010): the route
visit is resolved (404 when absent); form_valid validates the main form and
the two update-mode formsets, short-circuiting in that order, then runs the
nested check over the existing items; on full validity it updates the Visit
row — profile and cafe untouched — and runs both formset saves and the item
loop inside one atomic transaction.  A blank amount makes form.save()
write NULL into the NOT NULL amount column, raising IntegrityError and
rolling the whole write back (500, store unchanged). -/
def visitUpdatePost (db : Store) (visitPk : Nat) (req : UARequest) : AResp × Store :=
  match findVisitById db visitPk with
  | none => (.notFound, db)
  | some visit =>
    if ¬ visitFormIsValid req.visitForm then (.formErrors, db)
    else if ¬ uVisitPhotoFormSetIsValid req.visitPhotos then (.formErrors, db)
    else if ¬ uFavoriteItemFormSetIsValid (req.items.map (fun e => e.form)) then
      (.formErrors, db)
    else
      match uCheckNestedFormsets 0 req.items with
      | (false, inspected) => (.nestedErrors inspected, db)
      | (true, _) =>
        match req.visitForm.dateVisited, req.visitForm.userRating, req.visitForm.amountSpent with
        | some dt, some r, some a =>
          let db1 := { db with visits := db.visits.map (fun v2 =>
              if v2.id == visit.id then { v2 with dateVisited := dt, userRating := r, amountSpent := a, notes := req.visitForm.notes }
              else v2) }
          let db2 := uSaveVisitPhotoFormset visit.id req.visitPhotos db1
          (.redirect visit.id, uSaveItemsA visit.id req.items db2)
        | _, _, _ => (.serverError, db)

/-! ## Expected write sets

Pure descriptions of the rows one request creates, used to state the
atomicity contract: on success the store equals the old store plus exactly
these rows, on failure the old store. -/

/-- Number of visitPhotos entries of a Protocol B request that get a row. -/
def countKeptB (files : List String) (ps : List BPhoto) : Nat :=
  (ps.filter (keepPhotoB files)).length

/-- The VisitPhoto rows a Protocol B request creates, ids starting at nid. -/
def expectedVisitPhotosB (files : List String) (visitId : Nat) :
    Nat → List BPhoto → List VisitPhoto
  | _, [] => []
  | nid, p :: rest =>
    if keepPhotoB files p then
      { id := nid, visitId := visitId, image := p.fileKey.getD "",
        caption := p.caption.getD "" }
        :: expectedVisitPhotosB files visitId (nid + 1) rest
    else
      expectedVisitPhotosB files visitId nid rest

/-- The ItemPhoto rows one Protocol B item entry creates. -/
def expectedItemPhotosB (files : List String) (itemId : Nat) :
    Nat → List BPhoto → List ItemPhoto
  | _, [] => []
  | nid, p :: rest =>
    if keepPhotoB files p then
      { id := nid, favoriteItemId := itemId, image := p.fileKey.getD "",
        caption := p.caption.getD "" }
        :: expectedItemPhotosB files itemId (nid + 1) rest
    else
      expectedItemPhotosB files itemId nid rest

/-- The FavoriteItem and ItemPhoto rows a Protocol B request creates, item
ids starting at iid and item-photo ids at pid. -/
def expectedItemsB (files : List String) (visitId : Nat) :
    Nat → Nat → List BItem → List FavoriteItem × List ItemPhoto
  | _, _, [] => ([], [])
  | iid, pid, it :: rest =>
    if itemNameBlank it then
      expectedItemsB files visitId iid pid rest
    else
      let fi : FavoriteItem :=
        { id := iid, visitId := visitId, name := it.name.getD "",
          price := it.price.getD 0, rating := it.rating.getD 0,
          description := it.description.getD "" }
      let phs := expectedItemPhotosB files iid pid it.photos
      let r := expectedItemsB files visitId (iid + 1) (pid + phs.length) rest
      (fi :: r.1, phs ++ r.2)

/-- The store a successful Protocol B request leaves behind: the old store
plus the new Visit owned by the acting profile and the route cafe, its
VisitPhotos, FavoriteItems and ItemPhotos. -/
def bSuccessStore (db : Store) (profileId cafePk : Nat) (req : BRequest) : Store :=
  match req.dynamicData with
  | some (some dyn) =>
    let vid := db.nextVisitId
    let photos := expectedVisitPhotosB req.files vid db.nextVisitPhotoId dyn.visitPhotos
    let ips := expectedItemsB req.files vid db.nextItemId db.nextItemPhotoId dyn.favoriteItems
    { db with
        visits := db.visits ++
          [{ id := vid, profileId := profileId, cafeId := cafePk,
             dateVisited := req.dateVisited.getD "",
             userRating := req.userRating.getD 0,
             amountSpent := req.amountSpent.getD 0,
             notes := req.notes.getD "" }],
        visitPhotos := db.visitPhotos ++ photos,
        favoriteItems := db.favoriteItems ++ ips.1,
        itemPhotos := db.itemPhotos ++ ips.2,
        nextVisitId := db.nextVisitId + 1,
        nextVisitPhotoId := db.nextVisitPhotoId + countKeptB req.files dyn.visitPhotos,
        nextItemId := db.nextItemId + ips.1.length,
        nextItemPhotoId := db.nextItemPhotoId + ips.2.length }
  | _ => db

/-- Whether a bound photo form produces a row on save. -/
def keepPhotoA : FormEntry PhotoFormData → Bool
  | .empty => false
  | .filled d => !d.delete

/-- Number of photo forms of a Protocol A formset that get a row. -/
def countKeptA (ps : List (FormEntry PhotoFormData)) : Nat :=
  (ps.filter keepPhotoA).length

/-- The VisitPhoto rows a Protocol A submission creates. -/
def expectedVisitPhotosA (visitId : Nat) :
    Nat → List (FormEntry PhotoFormData) → List VisitPhoto
  | _, [] => []
  | nid, .empty :: rest => expectedVisitPhotosA visitId nid rest
  | nid, .filled d :: rest =>
    if d.delete then
      expectedVisitPhotosA visitId nid rest
    else
      { id := nid, visitId := visitId, image := d.image.getD "",
        caption := d.caption }
        :: expectedVisitPhotosA visitId (nid + 1) rest

/-- The ItemPhoto rows one Protocol A item slot's nested formset creates. -/
def expectedItemPhotosA (itemId : Nat) :
    Nat → List (FormEntry PhotoFormData) → List ItemPhoto
  | _, [] => []
  | nid, .empty :: rest => expectedItemPhotosA itemId nid rest
  | nid, .filled d :: rest =>
    if d.delete then
      expectedItemPhotosA itemId nid rest
    else
      { id := nid, favoriteItemId := itemId, image := d.image.getD "",
        caption := d.caption }
        :: expectedItemPhotosA itemId (nid + 1) rest

/-- The FavoriteItem and ItemPhoto rows a Protocol A submission creates
(the DELETE-flagged filled forms never reach this on the success path). -/
def expectedItemsA (visitId : Nat) :
    Nat → Nat → List ItemEntry → List FavoriteItem × List ItemPhoto
  | _, _, [] => ([], [])
  | iid, pid, e :: rest =>
    match e.form with
    | .empty => expectedItemsA visitId iid pid rest
    | .filled d =>
      let fi : FavoriteItem :=
        { id := iid, visitId := visitId, name := d.name,
          price := d.price.getD 0, rating := d.rating.getD 0,
          description := d.description }
      let phs := expectedItemPhotosA iid pid e.nestedPhotos
      let r := expectedItemsA visitId (iid + 1) (pid + phs.length) rest
      (fi :: r.1, phs ++ r.2)

/-- The store a successful Protocol A submission leaves behind. -/
def aSuccessStore (db : Store) (profileId cafePk : Nat) (req : ARequest) : Store :=
  let vid := db.nextVisitId
  let photos := expectedVisitPhotosA vid db.nextVisitPhotoId req.visitPhotos
  let ips := expectedItemsA vid db.nextItemId db.nextItemPhotoId req.items
  { db with
      visits := db.visits ++
        [{ id := vid, profileId := profileId, cafeId := cafePk,
           dateVisited := req.visitForm.dateVisited.getD "",
           userRating := req.visitForm.userRating.getD 0,
           amountSpent := req.visitForm.amountSpent.getD 0,
           notes := req.visitForm.notes }],
      visitPhotos := db.visitPhotos ++ photos,
      favoriteItems := db.favoriteItems ++ ips.1,
      itemPhotos := db.itemPhotos ++ ips.2,
      nextVisitId := db.nextVisitId + 1,
      nextVisitPhotoId := db.nextVisitPhotoId + countKeptA req.visitPhotos,
      nextItemId := db.nextItemId + ips.1.length,
      nextItemPhotoId := db.nextItemPhotoId + ips.2.length }

/-- Indices (starting at i) of the item entries not flagged for deletion. -/
def nonDeletedIndices : Nat → List ItemEntry → List Nat
  | _, [] => []
  | i, e :: rest =>
    if itemEntryDeleted e then
      nonDeletedIndices (i + 1) rest
    else
      i :: nonDeletedIndices (i + 1) rest

/-- The JSON body PlaceStickerView receives in the scenario of the spec:
visit id, sticker type name, x and y present, rotation and scale omitted. -/
def placeBody (vq : ℚ) (tn : String) (x y : ℚ) : Dict :=
  [("visit_id", .num vq), ("sticker_type", .str tn none),
   ("x", .num x), ("y", .num y)]

/-- A place body that also omits x and y. -/
def placeBodyMin (vq : ℚ) (tn : String) : Dict :=
  [("visit_id", .num vq), ("sticker_type", .str tn none)]

/-! ## Sample rows for the concrete checks -/

/-- A sample cafe. -/
def sampleCafe : Cafe := { id := 1, name := "Cafe Uno" }

/-- A sample visit at the sample cafe. -/
def sampleVisit : Visit :=
  { id := 1, profileId := 1, cafeId := 1, dateVisited := "2025-11-24",
    userRating := 4, amountSpent := 12, notes := "" }

/-- A sample sticker-type catalog entry. -/
def sampleStickerType : StickerType := { id := 1, name := "heart", image := "heart.png" }

/-- A sample placed sticker on the sample visit. -/
def sampleSticker : Sticker :=
  { id := 1, visitId := 1, typeId := 1, xPosition := 5, yPosition := 6,
    rotation := 7, scale := 2, image := some "heart.png" }

/-- The empty entity store. -/
def emptyStore : Store :=
  { cafes := [], visits := [], visitPhotos := [], favoriteItems := [],
    itemPhotos := [], stickers := [], stickerTypes := [], wishes := [],
    nextVisitId := 1, nextVisitPhotoId := 1, nextItemId := 1,
    nextItemPhotoId := 1, nextStickerId := 1, nextWishId := 1 }

/-- A small populated store: one cafe, one visit, one sticker, one type. -/
def sampleStore : Store :=
  { emptyStore with
      cafes := [sampleCafe], visits := [sampleVisit],
      stickers := [sampleSticker], stickerTypes := [sampleStickerType],
      nextVisitId := 2, nextStickerId := 2 }

/-- A Protocol B favoriteItems entry with no name but with data and a photo
that would be processed were the entry not skipped. -/
def blankBItem : BItem :=
  { name := none, price := some 3, rating := some 4, description := some "tasty",
    photos := [{ fileKey := some "f1", caption := some "c" }] }

/-- A named Protocol B favoriteItems entry. -/
def namedBItem : BItem :=
  { name := some "latte", price := some 5, rating := some 4, description := some "",
    photos := [] }

/-- A Protocol B request carrying one named and one blank-named item. -/
def sampleBReq : BRequest :=
  { dynamicData := some (some { visitPhotos := [], favoriteItems := [namedBItem, blankBItem] }),
    files := [], dateVisited := some "2025-11-24", userRating := some 4,
    amountSpent := some 10, notes := some "", clientProfileId := none,
    clientCafeId := none }

/-- The same Protocol B request with its favoriteItems list replaced by
pre ++ post (used to phrase: a blank entry in the middle changes nothing). -/
def withFavoriteItems (req : BRequest) (dyn : BDynamic) (pre post : List BItem) : BRequest :=
  { req with dynamicData := some (some { dyn with favoriteItems := pre ++ post }) }

/-- A Protocol A submission whose main form is invalid (all fields blank). -/
def badAReq : ARequest :=
  { visitForm := { dateVisited := none, userRating := none, amountSpent := none, notes := "" },
    visitPhotos := [], items := [], clientProfileId := none, clientCafeId := none }

/-- A valid main visit form. -/
def goodVisitForm : VisitFormData :=
  { dateVisited := some "2025-11-24", userRating := some 4, amountSpent := some 10,
    notes := "" }

/-- A filled photo form with the required image missing: field-invalid, so
any nested formset containing it is invalid. -/
def badPhotoForm : FormEntry PhotoFormData :=
  .filled { image := none, caption := "pic", delete := false }

/-- A favorite-item slot with an invalid nested photo formset. -/
def itemEntryOne : ItemEntry :=
  { form := .filled { name := "mocha", price := some 4, rating := some 5,
                      description := "", delete := false },
    nestedPhotos := [badPhotoForm] }

/-- A second favorite-item slot, also with an invalid nested photo formset. -/
def itemEntryTwo : ItemEntry :=
  { form := .filled { name := "scone", price := some 3, rating := some 4,
                      description := "", delete := false },
    nestedPhotos := [badPhotoForm] }

/-- A favorite-item slot whose nested photo formset is valid. -/
def okItemEntry : ItemEntry :=
  { form := .filled { name := "latte", price := some 5, rating := some 5,
                      description := "", delete := false },
    nestedPhotos := [] }

/-- Protocol A submission with two items whose nested photo formsets are
both invalid. -/
def c2Req : ARequest :=
  { visitForm := goodVisitForm, visitPhotos := [],
    items := [itemEntryOne, itemEntryTwo],
    clientProfileId := none, clientCafeId := none }

/-- Protocol A submission with a valid-nested item followed by two items
whose nested photo formsets are invalid. -/
def c2wReq : ARequest :=
  { visitForm := goodVisitForm, visitPhotos := [],
    items := [okItemEntry, itemEntryTwo, itemEntryOne],
    clientProfileId := none, clientCafeId := none }

/-- Six valid filled visit-photo forms — one more than the stated maximum
of five per visit. -/
def sixPhotos : List (FormEntry PhotoFormData) :=
  List.replicate 6 (.filled { image := some "p.jpg", caption := "", delete := false })

/-- Protocol A submission carrying six visit photos and nothing else. -/
def c3Req : ARequest :=
  { visitForm := goodVisitForm, visitPhotos := sixPhotos, items := [],
    clientProfileId := none, clientCafeId := none }

/-! ## Expected write set of an update

Declarative description of what a successful update leaves behind: the
transformation applied to the already-stored rows (deletes and overwrites,
keyed by pk) separated from the list of created rows with fresh ids. -/

/-- Pks of the initial forms of an update-mode formset, in order. -/
def uInitialPks {δ : Type} : List (UFormEntry δ) → List Nat
  | [] => []
  | .initial pk _ :: rest => pk :: uInitialPks rest
  | .extraEmpty :: rest => uInitialPks rest
  | .extraFilled _ :: rest => uInitialPks rest

/-- The transformation an update-mode visit-photo formset applies to the
stored rows: initial forms delete or overwrite their row, extra forms touch
no existing row. -/
def uPhotoResult : List (UFormEntry PhotoFormData) → List VisitPhoto → List VisitPhoto
  | [], l => l
  | .initial pk d :: rest, l =>
    if d.delete then uPhotoResult rest (l.filter (fun p => p.id != pk))
    else uPhotoResult rest (l.map (fun p =>
      if p.id == pk then { p with image := d.image.getD "", caption := d.caption } else p))
  | .extraEmpty :: rest, l => uPhotoResult rest l
  | .extraFilled _ :: rest, l => uPhotoResult rest l

/-- The VisitPhoto rows an update-mode formset creates, ids from nid. -/
def uNewVisitPhotos (visitId : Nat) : Nat → List (UFormEntry PhotoFormData) → List VisitPhoto
  | _, [] => []
  | nid, .extraFilled d :: rest =>
    if d.delete then uNewVisitPhotos visitId nid rest
    else
      { id := nid, visitId := visitId, image := d.image.getD "", caption := d.caption }
        :: uNewVisitPhotos visitId (nid + 1) rest
  | nid, .initial _ _ :: rest => uNewVisitPhotos visitId nid rest
  | nid, .extraEmpty :: rest => uNewVisitPhotos visitId nid rest

/-- The transformation one nested item-photo formset applies to the stored
ItemPhoto rows. -/
def uItemPhotoResult : List (UFormEntry PhotoFormData) → List ItemPhoto → List ItemPhoto
  | [], l => l
  | .initial pk d :: rest, l =>
    if d.delete then uItemPhotoResult rest (l.filter (fun p => p.id != pk))
    else uItemPhotoResult rest (l.map (fun p =>
      if p.id == pk then { p with image := d.image.getD "", caption := d.caption } else p))
  | .extraEmpty :: rest, l => uItemPhotoResult rest l
  | .extraFilled _ :: rest, l => uItemPhotoResult rest l

/-- The ItemPhoto rows one nested item-photo formset creates for the item
with pk itemId, ids from nid. -/
def uNewItemPhotos (itemId : Nat) : Nat → List (UFormEntry PhotoFormData) → List ItemPhoto
  | _, [] => []
  | nid, .extraFilled d :: rest =>
    if d.delete then uNewItemPhotos itemId nid rest
    else
      { id := nid, favoriteItemId := itemId, image := d.image.getD "", caption := d.caption }
        :: uNewItemPhotos itemId (nid + 1) rest
  | nid, .initial _ _ :: rest => uNewItemPhotos itemId nid rest
  | nid, .extraEmpty :: rest => uNewItemPhotos itemId nid rest

/-- Pks of the existing items addressed by an update submission, in order. -/
def uItemPks : List UItemEntry → List Nat
  | [] => []
  | e :: rest =>
    match e.form with
    | .initial pk _ => pk :: uItemPks rest
    | _ => uItemPks rest

/-- The transformation the item loop applies to the stored FavoriteItem
rows: deleted existing items are removed, the other existing items are
overwritten with the submitted fields, new items touch no existing row. -/
def uItemsResult (visitId : Nat) : List UItemEntry → List FavoriteItem → List FavoriteItem
  | [], l => l
  | e :: rest, l =>
    match e.form with
    | .initial pk d =>
      if d.delete then uItemsResult visitId rest (l.filter (fun f => f.id != pk))
      else uItemsResult visitId rest (l.map (fun f =>
        if f.id == pk then { f with visitId := visitId, name := d.name, price := d.price.getD 0, rating := d.rating.getD 0, description := d.description } else f))
    | .extraEmpty => uItemsResult visitId rest l
    | .extraFilled _ => uItemsResult visitId rest l

/-- The new FavoriteItem rows of an update submission, ids from iid. -/
def uNewItems (visitId : Nat) : Nat → List UItemEntry → List FavoriteItem
  | _, [] => []
  | iid, e :: rest =>
    match e.form with
    | .extraFilled d =>
      if d.delete then uNewItems visitId iid rest
      else
        { id := iid, visitId := visitId, name := d.name, price := d.price.getD 0, rating := d.rating.getD 0, description := d.description }
          :: uNewItems visitId (iid + 1) rest
    | .initial _ _ => uNewItems visitId iid rest
    | .extraEmpty => uNewItems visitId iid rest

/-- The transformation the item loop applies to the stored ItemPhoto rows:
a deleted existing item cascades to its photos, an updated existing item
applies its nested formset's initial-form operations, new items touch
nothing here. -/
def uItemsPhotoResult : List UItemEntry → List ItemPhoto → List ItemPhoto
  | [], l => l
  | e :: rest, l =>
    match e.form with
    | .initial pk d =>
      if d.delete then uItemsPhotoResult rest (l.filter (fun p => p.favoriteItemId != pk))
      else uItemsPhotoResult rest (uItemPhotoResult e.nestedPhotos l)
    | .extraEmpty => uItemsPhotoResult rest l
    | .extraFilled _ => uItemsPhotoResult rest l

/-- The ItemPhoto rows the nested formsets of the existing, non-deleted
items create, ids from pid. -/
def uNewNestedPhotos : Nat → List UItemEntry → List ItemPhoto
  | _, [] => []
  | pid, e :: rest =>
    match e.form with
    | .initial pk d =>
      if d.delete then uNewNestedPhotos pid rest
      else
        uNewItemPhotos pk pid e.nestedPhotos ++
          uNewNestedPhotos (pid + (uNewItemPhotos pk pid e.nestedPhotos).length) rest
    | .extraEmpty => uNewNestedPhotos pid rest
    | .extraFilled _ => uNewNestedPhotos pid rest

/-- Store/request consistency of an update submission, guaranteed by the
ORM for a real request: the initial forms of a bound formset address
distinct existing rows, and every existing pk is below the table's
autoincrement counter. -/
def uRequestConsistent (db : Store) (req : UARequest) : Prop :=
  (∀ pk ∈ uInitialPks req.visitPhotos, pk < db.nextVisitPhotoId) ∧
  (∀ pk ∈ uItemPks req.items, pk < db.nextItemId) ∧
  (uItemPks req.items).Nodup ∧
  (∀ e ∈ req.items, ∀ pk ∈ uInitialPks e.nestedPhotos, pk < db.nextItemPhotoId)

/-- The store a successful update leaves behind: the visit row overwritten
with the form scalars (owner and cafe untouched), each formset's
transformation applied to the stored rows, and the created rows appended
with fresh ids. -/
def uSuccessStore (db : Store) (visitPk : Nat) (req : UARequest) : Store :=
  { db with
      visits := db.visits.map (fun v =>
        if v.id == visitPk then { v with dateVisited := req.visitForm.dateVisited.getD "", userRating := req.visitForm.userRating.getD 0, amountSpent := req.visitForm.amountSpent.getD 0, notes := req.visitForm.notes }
        else v),
      visitPhotos := uPhotoResult req.visitPhotos db.visitPhotos ++
        uNewVisitPhotos visitPk db.nextVisitPhotoId req.visitPhotos,
      favoriteItems := uItemsResult visitPk req.items db.favoriteItems ++
        uNewItems visitPk db.nextItemId req.items,
      itemPhotos := uItemsPhotoResult req.items db.itemPhotos ++
        uNewNestedPhotos db.nextItemPhotoId req.items,
      nextVisitPhotoId := db.nextVisitPhotoId +
        (uNewVisitPhotos visitPk db.nextVisitPhotoId req.visitPhotos).length,
      nextItemId := db.nextItemId +
        (uNewItems visitPk db.nextItemId req.items).length,
      nextItemPhotoId := db.nextItemPhotoId +
        (uNewNestedPhotos db.nextItemPhotoId req.items).length }

/-- A store with one existing photo, item and item photo on the sample
visit, for the concrete update check. -/
def updStore : Store :=
  { sampleStore with
      visitPhotos := [{ id := 1, visitId := 1, image := "old.jpg", caption := "old" }],
      favoriteItems := [{ id := 1, visitId := 1, name := "espresso", price := 3, rating := 4, description := "" }],
      itemPhotos := [{ id := 1, favoriteItemId := 1, image := "item.jpg", caption := "i" }],
      nextVisitPhotoId := 2, nextItemId := 2, nextItemPhotoId := 2 }

/-- An update submission touching every kind of write: it overwrites the
existing photo, adds a photo, overwrites the existing item while deleting
its photo and adding a fresh one, and adds a second item. -/
def ureqSample : UARequest :=
  { visitForm := goodVisitForm,
    visitPhotos := [.initial 1 { image := some "new.jpg", caption := "updated", delete := false },
                    .extraFilled { image := some "extra.jpg", caption := "", delete := false }],
    items := [{ form := .initial 1 { name := "flat white", price := some 5, rating := some 5, description := "", delete := false },
                nestedPhotos := [.initial 1 { image := some "item.jpg", caption := "i", delete := true },
                                 .extraFilled { image := some "fresh.jpg", caption := "", delete := false }] },
              { form := .extraFilled { name := "bun", price := some 2, rating := some 3, description := "", delete := false },
                nestedPhotos := [] }],
    clientProfileId := none, clientCafeId := none }

/-! ## Helper lemmas -/

/-- A cafe found by pk has that pk. -/
theorem findCafeByPk_id {db : Store} {pk : Nat} {cafe : Cafe}
    (h : findCafeByPk db pk = some cafe) : cafe.id = pk := by
  unfold findCafeByPk at h
  have := List.find?_some h
  simpa using this

/-- Characterization of visit_photo_formset.save in create mode: it appends
exactly the expected rows and advances the photo pk counter. -/
theorem saveVisitPhotoFormset_eq (visitId : Nat) :
    ∀ (ps : List (FormEntry PhotoFormData)) (db : Store),
    saveVisitPhotoFormset visitId ps db =
      { db with
          visitPhotos := db.visitPhotos ++
            expectedVisitPhotosA visitId db.nextVisitPhotoId ps,
          nextVisitPhotoId := db.nextVisitPhotoId + countKeptA ps } := by
  intro ps
  induction ps with
  | nil =>
    intro db
    simp [saveVisitPhotoFormset, expectedVisitPhotosA, countKeptA]
  | cons p rest ih =>
    intro db
    cases p with
    | empty =>
      rw [show saveVisitPhotoFormset visitId (.empty :: rest) db =
            saveVisitPhotoFormset visitId rest db from rfl, ih]
      simp [expectedVisitPhotosA, countKeptA, keepPhotoA, List.filter]
    | filled d =>
      by_cases hd : d.delete
      · rw [show saveVisitPhotoFormset visitId (.filled d :: rest) db =
              if d.delete then saveVisitPhotoFormset visitId rest db
              else saveVisitPhotoFormset visitId rest
                { db with
                    visitPhotos := db.visitPhotos ++
                      [{ id := db.nextVisitPhotoId, visitId := visitId,
                         image := d.image.getD "", caption := d.caption }],
                    nextVisitPhotoId := db.nextVisitPhotoId + 1 } from rfl]
        rw [if_pos hd, ih]
        simp [expectedVisitPhotosA, countKeptA, keepPhotoA, List.filter, hd]
      · rw [show saveVisitPhotoFormset visitId (.filled d :: rest) db =
              if d.delete then saveVisitPhotoFormset visitId rest db
              else saveVisitPhotoFormset visitId rest
                { db with
                    visitPhotos := db.visitPhotos ++
                      [{ id := db.nextVisitPhotoId, visitId := visitId,
                         image := d.image.getD "", caption := d.caption }],
                    nextVisitPhotoId := db.nextVisitPhotoId + 1 } from rfl]
        rw [if_neg hd, ih]
        simp [expectedVisitPhotosA, countKeptA, keepPhotoA, List.filter, hd]
        omega

/-- Characterization of a nested item-photo formset save in create mode. -/
theorem saveItemPhotoFormset_eq (itemId : Nat) :
    ∀ (ps : List (FormEntry PhotoFormData)) (db : Store),
    saveItemPhotoFormset itemId ps db =
      { db with
          itemPhotos := db.itemPhotos ++
            expectedItemPhotosA itemId db.nextItemPhotoId ps,
          nextItemPhotoId := db.nextItemPhotoId + countKeptA ps } := by
  intro ps
  induction ps with
  | nil =>
    intro db
    simp [saveItemPhotoFormset, expectedItemPhotosA, countKeptA]
  | cons p rest ih =>
    intro db
    cases p with
    | empty =>
      rw [show saveItemPhotoFormset itemId (.empty :: rest) db =
            saveItemPhotoFormset itemId rest db from rfl, ih]
      simp [expectedItemPhotosA, countKeptA, keepPhotoA, List.filter]
    | filled d =>
      by_cases hd : d.delete
      · rw [show saveItemPhotoFormset itemId (.filled d :: rest) db =
              if d.delete then saveItemPhotoFormset itemId rest db
              else saveItemPhotoFormset itemId rest
                { db with
                    itemPhotos := db.itemPhotos ++
                      [{ id := db.nextItemPhotoId, favoriteItemId := itemId,
                         image := d.image.getD "", caption := d.caption }],
                    nextItemPhotoId := db.nextItemPhotoId + 1 } from rfl]
        rw [if_pos hd, ih]
        simp [expectedItemPhotosA, countKeptA, keepPhotoA, List.filter, hd]
      · rw [show saveItemPhotoFormset itemId (.filled d :: rest) db =
              if d.delete then saveItemPhotoFormset itemId rest db
              else saveItemPhotoFormset itemId rest
                { db with
                    itemPhotos := db.itemPhotos ++
                      [{ id := db.nextItemPhotoId, favoriteItemId := itemId,
                         image := d.image.getD "", caption := d.caption }],
                    nextItemPhotoId := db.nextItemPhotoId + 1 } from rfl]
        rw [if_neg hd, ih]
        simp [expectedItemPhotosA, countKeptA, keepPhotoA, List.filter, hd]
        omega

/-- The length of the expected item-photo list is the kept count. -/
theorem expectedItemPhotosA_length (itemId : Nat) :
    ∀ (ps : List (FormEntry PhotoFormData)) (nid : Nat),
    (expectedItemPhotosA itemId nid ps).length = countKeptA ps := by
  intro ps
  induction ps with
  | nil => intro nid; simp [expectedItemPhotosA, countKeptA]
  | cons p rest ih =>
    intro nid
    cases p with
    | empty => simp [expectedItemPhotosA, countKeptA, keepPhotoA, List.filter, ih]
    | filled d =>
      by_cases hd : d.delete
      · simp only [expectedItemPhotosA, hd, if_true]
        rw [ih nid]
        simp [countKeptA, keepPhotoA, List.filter, hd]
      · simp only [expectedItemPhotosA, hd, Bool.false_eq_true, if_false, List.length_cons]
        rw [ih (nid + 1)]
        simp [countKeptA, keepPhotoA, List.filter, hd]

/-- Characterization of the favorite-item save loop on the success path: it
appends exactly the expected FavoriteItem and ItemPhoto rows and advances
the two pk counters. -/
theorem saveItemsA_ok (visitId : Nat) :
    ∀ (items : List ItemEntry) (db db' : Store),
    saveItemsA visitId items db = .ok db' →
    db' =
      { db with
          favoriteItems := db.favoriteItems ++
            (expectedItemsA visitId db.nextItemId db.nextItemPhotoId items).1,
          itemPhotos := db.itemPhotos ++
            (expectedItemsA visitId db.nextItemId db.nextItemPhotoId items).2,
          nextItemId := db.nextItemId +
            (expectedItemsA visitId db.nextItemId db.nextItemPhotoId items).1.length,
          nextItemPhotoId := db.nextItemPhotoId +
            (expectedItemsA visitId db.nextItemId db.nextItemPhotoId items).2.length } := by
  intro items
  induction items with
  | nil =>
    intro db db' h
    simp [saveItemsA] at h
    simp [← h, expectedItemsA]
  | cons e rest ih =>
    intro db db' h
    cases hf : e.form with
    | empty =>
      rw [show saveItemsA visitId (e :: rest) db =
            (match e.form with
             | .empty => saveItemsA visitId rest db
             | .filled d =>
               if d.delete then .error ()
               else
                 saveItemsA visitId rest
                   (saveItemPhotoFormset (db.nextItemId) e.nestedPhotos
                     { db with
                         favoriteItems := db.favoriteItems ++
                           [{ id := db.nextItemId, visitId := visitId, name := d.name,
                              price := d.price.getD 0, rating := d.rating.getD 0,
                              description := d.description }],
                         nextItemId := db.nextItemId + 1 })) from rfl, hf] at h
      rw [ih db db' h]
      simp [expectedItemsA, hf]
    | filled d =>
      rw [show saveItemsA visitId (e :: rest) db =
            (match e.form with
             | .empty => saveItemsA visitId rest db
             | .filled d =>
               if d.delete then .error ()
               else
                 saveItemsA visitId rest
                   (saveItemPhotoFormset (db.nextItemId) e.nestedPhotos
                     { db with
                         favoriteItems := db.favoriteItems ++
                           [{ id := db.nextItemId, visitId := visitId, name := d.name,
                              price := d.price.getD 0, rating := d.rating.getD 0,
                              description := d.description }],
                         nextItemId := db.nextItemId + 1 })) from rfl, hf] at h
      dsimp only at h
      by_cases hd : d.delete
      · rw [if_pos hd] at h
        exact absurd h (by simp)
      · rw [if_neg hd, saveItemPhotoFormset_eq] at h
        rw [ih _ db' h]
        simp only [expectedItemsA, hf]
        simp [Store.mk.injEq, expectedItemPhotosA_length, List.append_assoc]
        omega

/-- Characterization of the Protocol B visit-photo loop on the success path. -/
theorem processVisitPhotosB_ok (files : List String) (visitId : Nat) :
    ∀ (ps : List BPhoto) (db db' : Store),
    processVisitPhotosB files visitId ps db = .ok db' →
    db' =
      { db with
          visitPhotos := db.visitPhotos ++
            expectedVisitPhotosB files visitId db.nextVisitPhotoId ps,
          nextVisitPhotoId := db.nextVisitPhotoId + countKeptB files ps } := by
  intro ps
  induction ps with
  | nil =>
    intro db db' h
    simp [processVisitPhotosB] at h
    simp [← h, expectedVisitPhotosB, countKeptB]
  | cons p rest ih =>
    intro db db' h
    rw [show processVisitPhotosB files visitId (p :: rest) db =
          (if keepPhotoB files p then
             match p.caption with
             | some cap =>
               processVisitPhotosB files visitId rest
                 { db with
                     visitPhotos := db.visitPhotos ++
                       [{ id := db.nextVisitPhotoId, visitId := visitId,
                          image := p.fileKey.getD "", caption := cap }],
                     nextVisitPhotoId := db.nextVisitPhotoId + 1 }
             | none => .error .integrity
           else processVisitPhotosB files visitId rest db) from rfl] at h
    by_cases hk : keepPhotoB files p
    · rw [if_pos hk] at h
      cases hc : p.caption with
      | none =>
        rw [hc] at h
        simp at h
      | some cap =>
        rw [hc] at h
        rw [ih _ db' h]
        simp only [expectedVisitPhotosB, hk, if_true, countKeptB, List.filter, hc]
        simp [Store.mk.injEq, List.append_assoc, countKeptB]
        omega
    · rw [if_neg hk] at h
      rw [ih _ db' h]
      simp [expectedVisitPhotosB, countKeptB, hk, List.filter]

/-- Characterization of the Protocol B item-photo loop on the success path. -/
theorem processItemPhotosB_ok (files : List String) (itemId : Nat) :
    ∀ (ps : List BPhoto) (db db' : Store),
    processItemPhotosB files itemId ps db = .ok db' →
    db' =
      { db with
          itemPhotos := db.itemPhotos ++
            expectedItemPhotosB files itemId db.nextItemPhotoId ps,
          nextItemPhotoId := db.nextItemPhotoId + countKeptB files ps } := by
  intro ps
  induction ps with
  | nil =>
    intro db db' h
    simp [processItemPhotosB] at h
    simp [← h, expectedItemPhotosB, countKeptB]
  | cons p rest ih =>
    intro db db' h
    rw [show processItemPhotosB files itemId (p :: rest) db =
          (if keepPhotoB files p then
             match p.caption with
             | some cap =>
               processItemPhotosB files itemId rest
                 { db with
                     itemPhotos := db.itemPhotos ++
                       [{ id := db.nextItemPhotoId, favoriteItemId := itemId,
                          image := p.fileKey.getD "", caption := cap }],
                     nextItemPhotoId := db.nextItemPhotoId + 1 }
             | none => .error .integrity
           else processItemPhotosB files itemId rest db) from rfl] at h
    by_cases hk : keepPhotoB files p
    · rw [if_pos hk] at h
      cases hc : p.caption with
      | none =>
        rw [hc] at h
        simp at h
      | some cap =>
        rw [hc] at h
        rw [ih _ db' h]
        simp only [expectedItemPhotosB, hk, if_true, hc]
        simp [Store.mk.injEq, List.append_assoc, countKeptB, List.filter, hk]
        omega
    · rw [if_neg hk] at h
      rw [ih _ db' h]
      simp [expectedItemPhotosB, countKeptB, hk, List.filter]

/-- The length of the expected Protocol B item-photo list is the kept count. -/
theorem expectedItemPhotosB_length (files : List String) (itemId : Nat) :
    ∀ (ps : List BPhoto) (nid : Nat),
    (expectedItemPhotosB files itemId nid ps).length = countKeptB files ps := by
  intro ps
  induction ps with
  | nil => intro nid; simp [expectedItemPhotosB, countKeptB]
  | cons p rest ih =>
    intro nid
    by_cases hk : keepPhotoB files p
    · simp only [expectedItemPhotosB, hk, if_true, List.length_cons]
      rw [ih (nid + 1)]
      simp [countKeptB, List.filter, hk]
    · simp only [expectedItemPhotosB, hk, Bool.false_eq_true, if_false]
      rw [ih nid]
      simp [countKeptB, List.filter, hk]

/-- Characterization of the Protocol B favorite-item loop on the success
path: it appends exactly the expected FavoriteItem and ItemPhoto rows. -/
theorem processItemsB_ok (files : List String) (visitId : Nat) :
    ∀ (items : List BItem) (db db' : Store),
    processItemsB files visitId items db = .ok db' →
    db' =
      { db with
          favoriteItems := db.favoriteItems ++
            (expectedItemsB files visitId db.nextItemId db.nextItemPhotoId items).1,
          itemPhotos := db.itemPhotos ++
            (expectedItemsB files visitId db.nextItemId db.nextItemPhotoId items).2,
          nextItemId := db.nextItemId +
            (expectedItemsB files visitId db.nextItemId db.nextItemPhotoId items).1.length,
          nextItemPhotoId := db.nextItemPhotoId +
            (expectedItemsB files visitId db.nextItemId db.nextItemPhotoId items).2.length } := by
  intro items
  induction items with
  | nil =>
    intro db db' h
    simp [processItemsB] at h
    simp [← h, expectedItemsB]
  | cons it rest ih =>
    intro db db' h
    rw [show processItemsB files visitId (it :: rest) db =
          (if itemNameBlank it then
             processItemsB files visitId rest db
           else
             match it.name, it.price, it.rating, it.description with
             | some nm, some pr, some ra, some de =>
               match processItemPhotosB files (db.nextItemId) it.photos
                   { db with
                       favoriteItems := db.favoriteItems ++
                         [{ id := db.nextItemId, visitId := visitId, name := nm,
                            price := pr, rating := ra, description := de }],
                       nextItemId := db.nextItemId + 1 } with
               | .ok db2 => processItemsB files visitId rest db2
               | .error e => .error e
             | _, _, _, _ => .error .integrity) from rfl] at h
    by_cases hb : itemNameBlank it
    · rw [if_pos hb] at h
      rw [ih _ db' h]
      simp [expectedItemsB, hb]
    · rw [if_neg hb] at h
      cases hn : it.name with
      | none => simp [itemNameBlank, hn] at hb
      | some nm =>
        cases hp : it.price with
        | none => rw [hn, hp] at h; simp at h
        | some pr =>
          cases hr : it.rating with
          | none => rw [hn, hp, hr] at h; simp at h
          | some de' =>
            cases hd : it.description with
            | none => rw [hn, hp, hr, hd] at h; simp at h
            | some de =>
              rw [hn, hp, hr, hd] at h
              dsimp only at h
              cases hpp : processItemPhotosB files (db.nextItemId) it.photos
                  { db with
                      favoriteItems := db.favoriteItems ++
                        [{ id := db.nextItemId, visitId := visitId, name := nm,
                           price := pr, rating := de', description := de }],
                      nextItemId := db.nextItemId + 1 } with
              | error e => rw [hpp] at h; simp at h
              | ok db2 =>
                rw [hpp] at h
                dsimp only at h
                rw [processItemPhotosB_ok files (db.nextItemId) it.photos _ db2 hpp] at h
                rw [ih _ db' h]
                simp only [expectedItemsB, hb, Bool.false_eq_true, if_false, hn, hp, hr, hd]
                simp [Store.mk.injEq, List.append_assoc, expectedItemPhotosB_length]
                omega

/-- Removing a blank-named entry anywhere in the favoriteItems list leaves
the Protocol B item loop's behavior unchanged. -/
theorem processItemsB_middle_skip (files : List String) (visitId : Nat)
    (it : BItem) (hbl : itemNameBlank it = true) :
    ∀ (pre post : List BItem) (db : Store),
    processItemsB files visitId (pre ++ it :: post) db =
      processItemsB files visitId (pre ++ post) db := by
  intro pre
  induction pre with
  | nil =>
    intro post db
    simp only [List.nil_append]
    rw [show processItemsB files visitId (it :: post) db =
          (if itemNameBlank it then
             processItemsB files visitId post db
           else
             match it.name, it.price, it.rating, it.description with
             | some nm, some pr, some ra, some de =>
               match processItemPhotosB files (db.nextItemId) it.photos
                   { db with
                       favoriteItems := db.favoriteItems ++
                         [{ id := db.nextItemId, visitId := visitId, name := nm,
                            price := pr, rating := ra, description := de }],
                       nextItemId := db.nextItemId + 1 } with
               | .ok db2 => processItemsB files visitId post db2
               | .error e => .error e
             | _, _, _, _ => .error .integrity) from rfl]
    rw [if_pos hbl]
  | cons e rest ih =>
    intro post db
    simp only [List.cons_append]
    rw [show processItemsB files visitId (e :: (rest ++ it :: post)) db =
          (if itemNameBlank e then
             processItemsB files visitId (rest ++ it :: post) db
           else
             match e.name, e.price, e.rating, e.description with
             | some nm, some pr, some ra, some de =>
               match processItemPhotosB files (db.nextItemId) e.photos
                   { db with
                       favoriteItems := db.favoriteItems ++
                         [{ id := db.nextItemId, visitId := visitId, name := nm,
                            price := pr, rating := ra, description := de }],
                       nextItemId := db.nextItemId + 1 } with
               | .ok db2 => processItemsB files visitId (rest ++ it :: post) db2
               | .error e2 => .error e2
             | _, _, _, _ => .error .integrity) from rfl,
        show processItemsB files visitId (e :: (rest ++ post)) db =
          (if itemNameBlank e then
             processItemsB files visitId (rest ++ post) db
           else
             match e.name, e.price, e.rating, e.description with
             | some nm, some pr, some ra, some de =>
               match processItemPhotosB files (db.nextItemId) e.photos
                   { db with
                       favoriteItems := db.favoriteItems ++
                         [{ id := db.nextItemId, visitId := visitId, name := nm,
                            price := pr, rating := ra, description := de }],
                       nextItemId := db.nextItemId + 1 } with
               | .ok db2 => processItemsB files visitId (rest ++ post) db2
               | .error e2 => .error e2
             | _, _, _, _ => .error .integrity) from rfl]
    by_cases hb : itemNameBlank e
    · rw [if_pos hb, if_pos hb]
      exact ih post db
    · rw [if_neg hb, if_neg hb]
      cases e.name with
      | none => rfl
      | some nm =>
        cases e.price with
        | none => rfl
        | some pr =>
          cases e.rating with
          | none => rfl
          | some ra =>
            cases e.description with
            | none => rfl
            | some de =>
              dsimp only
              cases processItemPhotosB files (db.nextItemId) e.photos
                  { db with
                      favoriteItems := db.favoriteItems ++
                        [{ id := db.nextItemId, visitId := visitId, name := nm,
                           price := pr, rating := ra, description := de }],
                      nextItemId := db.nextItemId + 1 } with
              | error e2 => rfl
              | ok db2 => exact ih post db2

/-- Characterization of a successful Protocol A visit save. -/
theorem createVisitA_ok {db db1 : Store} {p c : Nat} {f : VisitFormData} {v : Visit}
    (h : createVisitA db p c f = .ok (v, db1)) :
    v = { id := db.nextVisitId, profileId := p, cafeId := c,
          dateVisited := f.dateVisited.getD "", userRating := f.userRating.getD 0,
          amountSpent := f.amountSpent.getD 0, notes := f.notes } ∧
    db1 = { db with visits := db.visits ++ [v], nextVisitId := db.nextVisitId + 1 } := by
  unfold createVisitA at h
  cases hd : f.dateVisited with
  | none => rw [hd] at h; simp at h
  | some dt =>
    cases hr : f.userRating with
    | none => rw [hd, hr] at h; simp at h
    | some r =>
      cases ha : f.amountSpent with
      | none => rw [hd, hr, ha] at h; simp at h
      | some a =>
        rw [hd, hr, ha] at h
        dsimp only at h
        injection h with h2
        injection h2 with hv hdb
        constructor
        · rw [← hv]
          rfl
        · rw [← hdb, ← hv]

/-- Characterization of a successful Protocol B visit create. -/
theorem createVisitB_ok {db db1 : Store} {p c : Nat} {req : BRequest} {v : Visit}
    (h : createVisitB db p c req = .ok (v, db1)) :
    v = { id := db.nextVisitId, profileId := p, cafeId := c,
          dateVisited := req.dateVisited.getD "", userRating := req.userRating.getD 0,
          amountSpent := req.amountSpent.getD 0, notes := req.notes.getD "" } ∧
    db1 = { db with visits := db.visits ++ [v], nextVisitId := db.nextVisitId + 1 } := by
  unfold createVisitB at h
  cases hd : req.dateVisited with
  | none => rw [hd] at h; simp at h
  | some dt =>
    cases hr : req.userRating with
    | none => rw [hd, hr] at h; simp at h
    | some r =>
      cases ha : req.amountSpent with
      | none => rw [hd, hr, ha] at h; simp at h
      | some a =>
        cases hn : req.notes with
        | none => rw [hd, hr, ha, hn] at h; simp at h
        | some n =>
          rw [hd, hr, ha, hn] at h
          dsimp only at h
          injection h with h2
          injection h2 with hv hdb
          constructor
          · rw [← hv]
            rfl
          · rw [← hdb, ← hv]

/-- Full case analysis of VisitCreateView: either the run succeeds, answers
with the redirect to the new visit id and leaves exactly the expected
success store, or it leaves the store untouched and does not answer with a
redirect. -/
theorem visitCreatePost_cases (db : Store) (profileId cafePk : Nat) (areq : ARequest) :
    ((visitCreatePost db profileId cafePk areq).1 = .redirect db.nextVisitId ∧
       (visitCreatePost db profileId cafePk areq).2 =
         aSuccessStore db profileId cafePk areq) ∨
    ((visitCreatePost db profileId cafePk areq).2 = db ∧
       ∀ vid, (visitCreatePost db profileId cafePk areq).1 ≠ .redirect vid) := by
  unfold visitCreatePost
  cases hcafe : findCafeByPk db cafePk with
  | none => exact Or.inr ⟨rfl, by simp⟩
  | some cafe =>
    have hid : cafe.id = cafePk := findCafeByPk_id hcafe
    dsimp only
    by_cases h1 : visitFormIsValid areq.visitForm
    case neg => rw [if_pos (by simp [h1])]; exact Or.inr ⟨rfl, by simp⟩
    rw [if_neg (by simp [h1])]
    by_cases h2 : visitPhotoFormSetIsValid areq.visitPhotos
    case neg => rw [if_pos (by simp [h2])]; exact Or.inr ⟨rfl, by simp⟩
    rw [if_neg (by simp [h2])]
    by_cases h3 : favoriteItemFormSetIsValid (areq.items.map (fun e => e.form))
    case neg => rw [if_pos (by simp [h3])]; exact Or.inr ⟨rfl, by simp⟩
    rw [if_neg (by simp [h3])]
    cases hnc : checkNestedFormsets 0 areq.items with
    | mk b l =>
      cases b with
      | false => exact Or.inr ⟨rfl, by simp⟩
      | true =>
        dsimp only
        cases hca : createVisitA db profileId cafe.id areq.visitForm with
        | error e => exact Or.inr ⟨rfl, by simp⟩
        | ok vdb =>
          obtain ⟨v, db1⟩ := vdb
          obtain ⟨hv, hdb1⟩ := createVisitA_ok hca
          dsimp only
          cases hsi : saveItemsA v.id areq.items (saveVisitPhotoFormset v.id areq.visitPhotos db1) with
          | error e => exact Or.inr ⟨rfl, by simp⟩
          | ok db3 =>
            left
            have hvid : v.id = db.nextVisitId := by rw [hv]
            refine ⟨by rw [hvid], ?_⟩
            rw [saveVisitPhotoFormset_eq] at hsi
            have h3 := saveItemsA_ok v.id areq.items _ db3 hsi
            rw [h3, hdb1]
            dsimp only
            rw [hv]
            dsimp only
            unfold aSuccessStore
            simp [Store.mk.injEq, hid]

/-- Full case analysis of LogCafeVisitView: either the run succeeds with the
new visit id and the expected success store, or the store is untouched and
the answer is not a success. -/
theorem logCafeVisitPost_cases (db : Store) (profileId cafePk : Nat) (breq : BRequest) :
    ((logCafeVisitPost db profileId cafePk breq).1 = .success db.nextVisitId ∧
       (logCafeVisitPost db profileId cafePk breq).2 =
         bSuccessStore db profileId cafePk breq) ∨
    ((logCafeVisitPost db profileId cafePk breq).2 = db ∧
       ∀ vid, (logCafeVisitPost db profileId cafePk breq).1 ≠ .success vid) := by
  unfold logCafeVisitPost
  cases hcafe : findCafeByPk db cafePk with
  | none => exact Or.inr ⟨rfl, by simp⟩
  | some cafe =>
    have hid : cafe.id = cafePk := findCafeByPk_id hcafe
    dsimp only
    cases hdd : breq.dynamicData with
    | none => exact Or.inr ⟨rfl, by simp⟩
    | some od =>
      cases od with
      | none => exact Or.inr ⟨rfl, by simp⟩
      | some dyn =>
        dsimp only
        cases hcv : createVisitB db profileId cafe.id breq with
        | error e => exact Or.inr ⟨rfl, by simp⟩
        | ok vdb =>
          obtain ⟨v, db1⟩ := vdb
          obtain ⟨hv, hdb1⟩ := createVisitB_ok hcv
          dsimp only
          cases hpv : processVisitPhotosB breq.files v.id dyn.visitPhotos db1 with
          | error e => exact Or.inr ⟨rfl, by simp⟩
          | ok db2 =>
            dsimp only
            cases hpi : processItemsB breq.files v.id dyn.favoriteItems db2 with
            | error e => exact Or.inr ⟨rfl, by simp⟩
            | ok db3 =>
              left
              have hvid : v.id = db.nextVisitId := by rw [hv]
              refine ⟨by rw [hvid], ?_⟩
              have h2 := processVisitPhotosB_ok breq.files v.id dyn.visitPhotos db1 db2 hpv
              have h3 := processItemsB_ok breq.files v.id dyn.favoriteItems db2 db3 hpi
              rw [h3, h2, hdb1]
              dsimp only
              rw [hv]
              dsimp only
              unfold bSuccessStore
              rw [hdd]
              simp [Store.mk.injEq, hid]

/-- The nested-validation loop breaks at the first non-deleted entry with an
invalid nested formset: the items before it are inspected (unless flagged
for deletion), it is inspected, and the items after it are not, whatever
they are. -/
theorem checkNestedFormsets_break (e : ItemEntry) (post : List ItemEntry)
    (he1 : itemEntryDeleted e = false)
    (he2 : itemPhotoFormSetIsValid e.nestedPhotos = false) :
    ∀ (pre : List ItemEntry) (i : Nat),
    (∀ x ∈ pre, itemEntryDeleted x = true ∨ itemPhotoFormSetIsValid x.nestedPhotos = true) →
    checkNestedFormsets i (pre ++ e :: post) =
      (false, nonDeletedIndices i pre ++ [i + pre.length]) := by
  intro pre
  induction pre with
  | nil =>
    intro i _
    simp only [List.nil_append]
    rw [show checkNestedFormsets i (e :: post) =
          (if itemEntryDeleted e then checkNestedFormsets (i + 1) post
           else if itemPhotoFormSetIsValid e.nestedPhotos then
             ((checkNestedFormsets (i + 1) post).1,
              i :: (checkNestedFormsets (i + 1) post).2)
           else (false, [i])) from rfl]
    rw [if_neg (by simp [he1]), if_neg (by simp [he2])]
    simp [nonDeletedIndices]
  | cons x pre' ih =>
    intro i hx
    have hxx := hx x (List.mem_cons_self x pre')
    have hrest : ∀ y ∈ pre', itemEntryDeleted y = true ∨
        itemPhotoFormSetIsValid y.nestedPhotos = true :=
      fun y hy => hx y (List.mem_cons_of_mem x hy)
    simp only [List.cons_append]
    rw [show checkNestedFormsets i (x :: (pre' ++ e :: post)) =
          (if itemEntryDeleted x then checkNestedFormsets (i + 1) (pre' ++ e :: post)
           else if itemPhotoFormSetIsValid x.nestedPhotos then
             ((checkNestedFormsets (i + 1) (pre' ++ e :: post)).1,
              i :: (checkNestedFormsets (i + 1) (pre' ++ e :: post)).2)
           else (false, [i])) from rfl]
    by_cases hdx : itemEntryDeleted x
    · rw [if_pos (by simp [hdx])]
      rw [ih (i + 1) hrest]
      have harr : i + 1 + pre'.length = i + (pre'.length + 1) := by omega
      simp [nonDeletedIndices, hdx, harr]
    · have hvx : itemPhotoFormSetIsValid x.nestedPhotos = true := by
        rcases hxx with hd | hv
        · exact absurd hd hdx
        · exact hv
      rw [if_neg (by simp [hdx]), if_pos (by simp [hvx])]
      rw [ih (i + 1) hrest]
      have harr : i + 1 + pre'.length = i + (pre'.length + 1) := by omega
      simp [nonDeletedIndices, hdx, harr]

/-- A map whose function fixes every element of a list leaves it alone. -/
theorem list_map_fixed {α : Type} (f : α → α) :
    ∀ (l : List α), (∀ a ∈ l, f a = a) → l.map f = l := by
  intro l
  induction l with
  | nil => intro _; rfl
  | cons a rest ih =>
    intro h
    simp only [List.map_cons, h a (List.mem_cons_self a rest),
      ih (fun b hb => h b (List.mem_cons_of_mem a hb))]

/-- A filter whose predicate holds on every element of a list keeps it. -/
theorem list_filter_kept {α : Type} (p : α → Bool) :
    ∀ (l : List α), (∀ a ∈ l, p a = true) → l.filter p = l := by
  intro l
  induction l with
  | nil => intro _; rfl
  | cons a rest ih =>
    intro h
    simp only [List.filter_cons, h a (List.mem_cons_self a rest), if_true,
      ih (fun b hb => h b (List.mem_cons_of_mem a hb))]

/-- A visit found by pk has that pk. -/
theorem findVisitById_id {db : Store} {pk : Nat} {v : Visit}
    (h : findVisitById db pk = some v) : v.id = pk := by
  unfold findVisitById at h
  have := List.find?_some h
  simpa using this

/-- The stored-row transformation of an update-mode photo formset ignores
appended rows whose ids are addressed by none of its initial forms. -/
theorem uPhotoResult_append :
    ∀ (ps : List (UFormEntry PhotoFormData)) (l m : List VisitPhoto),
    (∀ p ∈ m, ∀ pk ∈ uInitialPks ps, p.id ≠ pk) →
    uPhotoResult ps (l ++ m) = uPhotoResult ps l ++ m := by
  intro ps
  induction ps with
  | nil => intro l m _; rfl
  | cons e rest ih =>
    intro l m hm
    cases e with
    | extraEmpty => exact ih l m hm
    | extraFilled d => exact ih l m hm
    | initial pk d =>
      have hne : ∀ p ∈ m, p.id ≠ pk :=
        fun p hp => hm p hp pk (List.mem_cons_self pk _)
      have hm' : ∀ p ∈ m, ∀ q ∈ uInitialPks rest, p.id ≠ q :=
        fun p hp q hq => hm p hp q (List.mem_cons_of_mem pk hq)
      by_cases hd : d.delete
      · simp only [uPhotoResult, hd, if_true]
        rw [List.filter_append,
            list_filter_kept _ m (fun p hp => by simpa using hne p hp)]
        exact ih _ m hm'
      · simp only [uPhotoResult, hd, Bool.false_eq_true, if_false]
        rw [List.map_append,
            list_map_fixed _ m (fun p hp => by simp [hne p hp])]
        exact ih _ m hm'

/-- Characterization of visit_photo_formset.save in update mode: it applies
the initial-form deletes and overwrites to the stored rows, appends exactly
the created rows, and advances the pk counter by their number — provided
every addressed pk is below the counter (autoincrement invariant). -/
theorem uSaveVisitPhotoFormset_eq (visitId : Nat) :
    ∀ (ps : List (UFormEntry PhotoFormData)) (db : Store),
    (∀ pk ∈ uInitialPks ps, pk < db.nextVisitPhotoId) →
    uSaveVisitPhotoFormset visitId ps db =
      { db with
          visitPhotos := uPhotoResult ps db.visitPhotos ++
            uNewVisitPhotos visitId db.nextVisitPhotoId ps,
          nextVisitPhotoId := db.nextVisitPhotoId +
            (uNewVisitPhotos visitId db.nextVisitPhotoId ps).length } := by
  intro ps
  induction ps with
  | nil =>
    intro db _
    simp [uSaveVisitPhotoFormset, uPhotoResult, uNewVisitPhotos]
  | cons e rest ih =>
    intro db hpk
    cases e with
    | extraEmpty =>
      rw [show uSaveVisitPhotoFormset visitId (.extraEmpty :: rest) db =
            uSaveVisitPhotoFormset visitId rest db from rfl, ih _ hpk]
      simp only [uPhotoResult, uNewVisitPhotos]
    | initial pk d =>
      have hpk' : ∀ q ∈ uInitialPks rest, q < db.nextVisitPhotoId :=
        fun q hq => hpk q (List.mem_cons_of_mem _ hq)
      by_cases hd : d.delete
      · rw [show uSaveVisitPhotoFormset visitId (.initial pk d :: rest) db =
              (if d.delete then
                 uSaveVisitPhotoFormset visitId rest
                   { db with visitPhotos := db.visitPhotos.filter (fun p => p.id != pk) }
               else
                 uSaveVisitPhotoFormset visitId rest
                   { db with visitPhotos := db.visitPhotos.map (fun p =>
                       if p.id == pk then { p with image := d.image.getD "", caption := d.caption }
                       else p) }) from rfl, if_pos hd]
        rw [ih { db with visitPhotos := db.visitPhotos.filter (fun p => p.id != pk) } hpk']
        dsimp only
        simp only [uPhotoResult, uNewVisitPhotos, hd, if_true]
      · rw [show uSaveVisitPhotoFormset visitId (.initial pk d :: rest) db =
              (if d.delete then
                 uSaveVisitPhotoFormset visitId rest
                   { db with visitPhotos := db.visitPhotos.filter (fun p => p.id != pk) }
               else
                 uSaveVisitPhotoFormset visitId rest
                   { db with visitPhotos := db.visitPhotos.map (fun p =>
                       if p.id == pk then { p with image := d.image.getD "", caption := d.caption }
                       else p) }) from rfl, if_neg hd]
        rw [ih { db with visitPhotos := db.visitPhotos.map (fun p =>
              if p.id == pk then { p with image := d.image.getD "", caption := d.caption }
              else p) } hpk']
        dsimp only
        simp only [uPhotoResult, uNewVisitPhotos, hd, Bool.false_eq_true, if_false]
    | extraFilled d =>
      by_cases hd : d.delete
      · rw [show uSaveVisitPhotoFormset visitId (.extraFilled d :: rest) db =
              (if d.delete then uSaveVisitPhotoFormset visitId rest db
               else
                 uSaveVisitPhotoFormset visitId rest
                   { db with
                       visitPhotos := db.visitPhotos ++
                         [{ id := db.nextVisitPhotoId, visitId := visitId,
                            image := d.image.getD "", caption := d.caption }],
                       nextVisitPhotoId := db.nextVisitPhotoId + 1 }) from rfl, if_pos hd]
        rw [ih _ hpk]
        simp only [uPhotoResult, uNewVisitPhotos, hd, if_true]
      · rw [show uSaveVisitPhotoFormset visitId (.extraFilled d :: rest) db =
              (if d.delete then uSaveVisitPhotoFormset visitId rest db
               else
                 uSaveVisitPhotoFormset visitId rest
                   { db with
                       visitPhotos := db.visitPhotos ++
                         [{ id := db.nextVisitPhotoId, visitId := visitId,
                            image := d.image.getD "", caption := d.caption }],
                       nextVisitPhotoId := db.nextVisitPhotoId + 1 }) from rfl, if_neg hd]
        rw [ih { db with
                   visitPhotos := db.visitPhotos ++
                     [{ id := db.nextVisitPhotoId, visitId := visitId,
                        image := d.image.getD "", caption := d.caption }],
                   nextVisitPhotoId := db.nextVisitPhotoId + 1 }
              (fun q hq => Nat.lt_succ_of_lt (hpk q hq))]
        dsimp only
        rw [uPhotoResult_append rest db.visitPhotos _
             (fun p hp q hq => by
               have h1 : p.id = db.nextVisitPhotoId := by
                 simp only [List.mem_singleton] at hp
                 rw [hp]
               have h2 := hpk q hq
               omega)]
        simp only [uPhotoResult, uNewVisitPhotos, hd, Bool.false_eq_true, if_false,
          List.append_assoc, List.singleton_append, List.length_cons]
        simp [Store.mk.injEq]
        omega

/-- The stored-row transformation of a nested item-photo formset ignores
appended rows whose ids are addressed by none of its initial forms. -/
theorem uItemPhotoResult_append :
    ∀ (ps : List (UFormEntry PhotoFormData)) (l m : List ItemPhoto),
    (∀ p ∈ m, ∀ pk ∈ uInitialPks ps, p.id ≠ pk) →
    uItemPhotoResult ps (l ++ m) = uItemPhotoResult ps l ++ m := by
  intro ps
  induction ps with
  | nil => intro l m _; rfl
  | cons e rest ih =>
    intro l m hm
    cases e with
    | extraEmpty => exact ih l m hm
    | extraFilled d => exact ih l m hm
    | initial pk d =>
      have hne : ∀ p ∈ m, p.id ≠ pk :=
        fun p hp => hm p hp pk (List.mem_cons_self pk _)
      have hm' : ∀ p ∈ m, ∀ q ∈ uInitialPks rest, p.id ≠ q :=
        fun p hp q hq => hm p hp q (List.mem_cons_of_mem pk hq)
      by_cases hd : d.delete
      · simp only [uItemPhotoResult, hd, if_true]
        rw [List.filter_append,
            list_filter_kept _ m (fun p hp => by simpa using hne p hp)]
        exact ih _ m hm'
      · simp only [uItemPhotoResult, hd, Bool.false_eq_true, if_false]
        rw [List.map_append,
            list_map_fixed _ m (fun p hp => by simp [hne p hp])]
        exact ih _ m hm'

/-- Every created nested photo's id is at least the starting counter. -/
theorem uNewItemPhotos_id_lb (itemId : Nat) :
    ∀ (ps : List (UFormEntry PhotoFormData)) (nid : Nat) (q : ItemPhoto),
    q ∈ uNewItemPhotos itemId nid ps → nid ≤ q.id := by
  intro ps
  induction ps with
  | nil => intro nid q hq; simp [uNewItemPhotos] at hq
  | cons e rest ih =>
    intro nid q hq
    cases e with
    | initial pk d => exact ih nid q hq
    | extraEmpty => exact ih nid q hq
    | extraFilled d =>
      by_cases hd : d.delete
      · rw [show uNewItemPhotos itemId nid (.extraFilled d :: rest) =
              (if d.delete then uNewItemPhotos itemId nid rest
               else { id := nid, favoriteItemId := itemId, image := d.image.getD "", caption := d.caption } :: uNewItemPhotos itemId (nid + 1) rest) from rfl,
            if_pos hd] at hq
        exact ih nid q hq
      · rw [show uNewItemPhotos itemId nid (.extraFilled d :: rest) =
              (if d.delete then uNewItemPhotos itemId nid rest
               else { id := nid, favoriteItemId := itemId, image := d.image.getD "", caption := d.caption } :: uNewItemPhotos itemId (nid + 1) rest) from rfl,
            if_neg hd] at hq
        rcases List.mem_cons.mp hq with h | h
        · rw [h]
        · exact Nat.le_of_succ_le (ih (nid + 1) q h)

/-- Every created nested photo belongs to the item the formset points at. -/
theorem uNewItemPhotos_fk (itemId : Nat) :
    ∀ (ps : List (UFormEntry PhotoFormData)) (nid : Nat) (q : ItemPhoto),
    q ∈ uNewItemPhotos itemId nid ps → q.favoriteItemId = itemId := by
  intro ps
  induction ps with
  | nil => intro nid q hq; simp [uNewItemPhotos] at hq
  | cons e rest ih =>
    intro nid q hq
    cases e with
    | initial pk d => exact ih nid q hq
    | extraEmpty => exact ih nid q hq
    | extraFilled d =>
      by_cases hd : d.delete
      · rw [show uNewItemPhotos itemId nid (.extraFilled d :: rest) =
              (if d.delete then uNewItemPhotos itemId nid rest
               else { id := nid, favoriteItemId := itemId, image := d.image.getD "", caption := d.caption } :: uNewItemPhotos itemId (nid + 1) rest) from rfl,
            if_pos hd] at hq
        exact ih nid q hq
      · rw [show uNewItemPhotos itemId nid (.extraFilled d :: rest) =
              (if d.delete then uNewItemPhotos itemId nid rest
               else { id := nid, favoriteItemId := itemId, image := d.image.getD "", caption := d.caption } :: uNewItemPhotos itemId (nid + 1) rest) from rfl,
            if_neg hd] at hq
        rcases List.mem_cons.mp hq with h | h
        · rw [h]
        · exact ih (nid + 1) q h

/-- Characterization of a nested item-photo formset save in update mode. -/
theorem uSaveItemPhotoFormset_eq (itemId : Nat) :
    ∀ (ps : List (UFormEntry PhotoFormData)) (db : Store),
    (∀ pk ∈ uInitialPks ps, pk < db.nextItemPhotoId) →
    uSaveItemPhotoFormset itemId ps db =
      { db with
          itemPhotos := uItemPhotoResult ps db.itemPhotos ++
            uNewItemPhotos itemId db.nextItemPhotoId ps,
          nextItemPhotoId := db.nextItemPhotoId +
            (uNewItemPhotos itemId db.nextItemPhotoId ps).length } := by
  intro ps
  induction ps with
  | nil =>
    intro db _
    simp [uSaveItemPhotoFormset, uItemPhotoResult, uNewItemPhotos]
  | cons e rest ih =>
    intro db hpk
    cases e with
    | extraEmpty =>
      rw [show uSaveItemPhotoFormset itemId (.extraEmpty :: rest) db =
            uSaveItemPhotoFormset itemId rest db from rfl, ih _ hpk]
      simp only [uItemPhotoResult, uNewItemPhotos]
    | initial pk d =>
      have hpk' : ∀ q ∈ uInitialPks rest, q < db.nextItemPhotoId :=
        fun q hq => hpk q (List.mem_cons_of_mem _ hq)
      by_cases hd : d.delete
      · rw [show uSaveItemPhotoFormset itemId (.initial pk d :: rest) db =
              (if d.delete then
                 uSaveItemPhotoFormset itemId rest
                   { db with itemPhotos := db.itemPhotos.filter (fun p => p.id != pk) }
               else
                 uSaveItemPhotoFormset itemId rest
                   { db with itemPhotos := db.itemPhotos.map (fun p =>
                       if p.id == pk then { p with image := d.image.getD "", caption := d.caption }
                       else p) }) from rfl, if_pos hd]
        rw [ih { db with itemPhotos := db.itemPhotos.filter (fun p => p.id != pk) } hpk']
        dsimp only
        simp only [uItemPhotoResult, uNewItemPhotos, hd, if_true]
      · rw [show uSaveItemPhotoFormset itemId (.initial pk d :: rest) db =
              (if d.delete then
                 uSaveItemPhotoFormset itemId rest
                   { db with itemPhotos := db.itemPhotos.filter (fun p => p.id != pk) }
               else
                 uSaveItemPhotoFormset itemId rest
                   { db with itemPhotos := db.itemPhotos.map (fun p =>
                       if p.id == pk then { p with image := d.image.getD "", caption := d.caption }
                       else p) }) from rfl, if_neg hd]
        rw [ih { db with itemPhotos := db.itemPhotos.map (fun p =>
              if p.id == pk then { p with image := d.image.getD "", caption := d.caption }
              else p) } hpk']
        dsimp only
        simp only [uItemPhotoResult, uNewItemPhotos, hd, Bool.false_eq_true, if_false]
    | extraFilled d =>
      by_cases hd : d.delete
      · rw [show uSaveItemPhotoFormset itemId (.extraFilled d :: rest) db =
              (if d.delete then uSaveItemPhotoFormset itemId rest db
               else
                 uSaveItemPhotoFormset itemId rest
                   { db with
                       itemPhotos := db.itemPhotos ++
                         [{ id := db.nextItemPhotoId, favoriteItemId := itemId,
                            image := d.image.getD "", caption := d.caption }],
                       nextItemPhotoId := db.nextItemPhotoId + 1 }) from rfl, if_pos hd]
        rw [ih _ hpk]
        simp only [uItemPhotoResult, uNewItemPhotos, hd, if_true]
      · rw [show uSaveItemPhotoFormset itemId (.extraFilled d :: rest) db =
              (if d.delete then uSaveItemPhotoFormset itemId rest db
               else
                 uSaveItemPhotoFormset itemId rest
                   { db with
                       itemPhotos := db.itemPhotos ++
                         [{ id := db.nextItemPhotoId, favoriteItemId := itemId,
                            image := d.image.getD "", caption := d.caption }],
                       nextItemPhotoId := db.nextItemPhotoId + 1 }) from rfl, if_neg hd]
        rw [ih { db with
                   itemPhotos := db.itemPhotos ++
                     [{ id := db.nextItemPhotoId, favoriteItemId := itemId,
                        image := d.image.getD "", caption := d.caption }],
                   nextItemPhotoId := db.nextItemPhotoId + 1 }
              (fun q hq => Nat.lt_succ_of_lt (hpk q hq))]
        dsimp only
        rw [uItemPhotoResult_append rest db.itemPhotos _
             (fun p hp q hq => by
               have h1 : p.id = db.nextItemPhotoId := by
                 simp only [List.mem_singleton] at hp
                 rw [hp]
               have h2 := hpk q hq
               omega)]
        simp only [uItemPhotoResult, uNewItemPhotos, hd, Bool.false_eq_true, if_false,
          List.append_assoc, List.singleton_append, List.length_cons]
        simp [Store.mk.injEq]
        omega

/-- The stored-item transformation of the update item loop ignores appended
rows whose ids are addressed by none of its existing-item forms. -/
theorem uItemsResult_append (visitId : Nat) :
    ∀ (items : List UItemEntry) (l m : List FavoriteItem),
    (∀ f ∈ m, ∀ pk ∈ uItemPks items, f.id ≠ pk) →
    uItemsResult visitId items (l ++ m) = uItemsResult visitId items l ++ m := by
  intro items
  induction items with
  | nil => intro l m _; rfl
  | cons e rest ih =>
    intro l m hm
    obtain ⟨form, nested⟩ := e
    cases form with
    | extraEmpty => exact ih l m hm
    | extraFilled d => exact ih l m hm
    | initial pk d =>
      have hne : ∀ f ∈ m, f.id ≠ pk :=
        fun f hf2 => hm f hf2 pk (List.mem_cons_self pk _)
      have hm' : ∀ f ∈ m, ∀ q ∈ uItemPks rest, f.id ≠ q :=
        fun f hf2 q hq => hm f hf2 q (List.mem_cons_of_mem pk hq)
      by_cases hd : d.delete
      · simp only [uItemsResult, hd, if_true]
        rw [List.filter_append,
            list_filter_kept _ m (fun f hf2 => by simpa using hne f hf2)]
        exact ih _ m hm'
      · simp only [uItemsResult, hd, Bool.false_eq_true, if_false]
        rw [List.map_append,
            list_map_fixed _ m (fun f hf2 => by simp [hne f hf2])]
        exact ih _ m hm'

/-- The stored-item-photo transformation of the update item loop ignores
appended rows whose ids are addressed by no nested initial form and whose
item does not appear among the loop's existing items (so no cascade can hit
them). -/
theorem uItemsPhotoResult_append :
    ∀ (items : List UItemEntry) (l m : List ItemPhoto),
    (∀ p ∈ m, ∀ e ∈ items, ∀ pk ∈ uInitialPks e.nestedPhotos, p.id ≠ pk) →
    (∀ p ∈ m, ∀ pk ∈ uItemPks items, p.favoriteItemId ≠ pk) →
    uItemsPhotoResult items (l ++ m) = uItemsPhotoResult items l ++ m := by
  intro items
  induction items with
  | nil => intro l m _ _; rfl
  | cons e rest ih =>
    intro l m h1 h2
    have h1' : ∀ p ∈ m, ∀ e2 ∈ rest, ∀ pk ∈ uInitialPks e2.nestedPhotos, p.id ≠ pk :=
      fun p hp e2 he2 pk hpk => h1 p hp e2 (List.mem_cons_of_mem e he2) pk hpk
    obtain ⟨form, nested⟩ := e
    cases form with
    | extraEmpty => exact ih l m h1' h2
    | extraFilled d => exact ih l m h1' h2
    | initial pk d =>
      have h2' : ∀ p ∈ m, ∀ q ∈ uItemPks rest, p.favoriteItemId ≠ q :=
        fun p hp q hq => h2 p hp q (List.mem_cons_of_mem pk hq)
      by_cases hd : d.delete
      · simp only [uItemsPhotoResult, hd, if_true]
        rw [List.filter_append,
            list_filter_kept _ m (fun p hp => by
              simpa using h2 p hp pk (List.mem_cons_self pk _))]
        exact ih _ m h1' h2'
      · simp only [uItemsPhotoResult, hd, Bool.false_eq_true, if_false]
        rw [uItemPhotoResult_append nested l m
              (fun p hp q hq =>
                h1 p hp ⟨UFormEntry.initial pk d, nested⟩
                  (List.mem_cons_self _ rest) q hq)]
        exact ih _ m h1' h2'

/-- Characterization of the update item loop: it applies the existing-item
deletes (with their ItemPhoto cascades), overwrites and nested-photo
operations to the stored rows, appends exactly the created FavoriteItem and
ItemPhoto rows, and advances both pk counters — provided the addressed
existing pks are distinct, below their counters. -/
theorem uSaveItemsA_eq (visitId : Nat) :
    ∀ (items : List UItemEntry) (db : Store),
    (∀ pk ∈ uItemPks items, pk < db.nextItemId) →
    (uItemPks items).Nodup →
    (∀ e ∈ items, ∀ pk ∈ uInitialPks e.nestedPhotos, pk < db.nextItemPhotoId) →
    uSaveItemsA visitId items db =
      { db with
          favoriteItems := uItemsResult visitId items db.favoriteItems ++
            uNewItems visitId db.nextItemId items,
          itemPhotos := uItemsPhotoResult items db.itemPhotos ++
            uNewNestedPhotos db.nextItemPhotoId items,
          nextItemId := db.nextItemId +
            (uNewItems visitId db.nextItemId items).length,
          nextItemPhotoId := db.nextItemPhotoId +
            (uNewNestedPhotos db.nextItemPhotoId items).length } := by
  intro items
  induction items with
  | nil =>
    intro db _ _ _
    simp [uSaveItemsA, uItemsResult, uNewItems, uItemsPhotoResult, uNewNestedPhotos]
  | cons e rest ih =>
    intro db hpkI hnd hpkP
    have hpkP' : ∀ e2 ∈ rest, ∀ pk ∈ uInitialPks e2.nestedPhotos, pk < db.nextItemPhotoId :=
      fun e2 he2 pk hpk => hpkP e2 (List.mem_cons_of_mem e he2) pk hpk
    obtain ⟨form, nested⟩ := e
    cases form with
    | extraEmpty =>
      rw [show uSaveItemsA visitId (⟨.extraEmpty, nested⟩ :: rest) db =
            uSaveItemsA visitId rest db from rfl]
      rw [ih db hpkI hnd hpkP']
      simp only [uItemsResult, uNewItems, uItemsPhotoResult, uNewNestedPhotos]
    | extraFilled d =>
      by_cases hd : d.delete
      · rw [show uSaveItemsA visitId (⟨.extraFilled d, nested⟩ :: rest) db =
              (if d.delete then uSaveItemsA visitId rest db
               else
                 uSaveItemsA visitId rest
                   { db with
                       favoriteItems := db.favoriteItems ++
                         [{ id := db.nextItemId, visitId := visitId, name := d.name,
                            price := d.price.getD 0, rating := d.rating.getD 0,
                            description := d.description }],
                       nextItemId := db.nextItemId + 1 }) from rfl, if_pos hd]
        rw [ih db hpkI hnd hpkP']
        simp only [uItemsResult, uNewItems, uItemsPhotoResult, uNewNestedPhotos, hd, if_true]
      · rw [show uSaveItemsA visitId (⟨.extraFilled d, nested⟩ :: rest) db =
              (if d.delete then uSaveItemsA visitId rest db
               else
                 uSaveItemsA visitId rest
                   { db with
                       favoriteItems := db.favoriteItems ++
                         [{ id := db.nextItemId, visitId := visitId, name := d.name,
                            price := d.price.getD 0, rating := d.rating.getD 0,
                            description := d.description }],
                       nextItemId := db.nextItemId + 1 }) from rfl, if_neg hd]
        rw [ih { db with
                   favoriteItems := db.favoriteItems ++
                     [{ id := db.nextItemId, visitId := visitId, name := d.name,
                        price := d.price.getD 0, rating := d.rating.getD 0,
                        description := d.description }],
                   nextItemId := db.nextItemId + 1 }
              (fun q hq => Nat.lt_succ_of_lt (hpkI q hq)) hnd hpkP']
        dsimp only
        rw [uItemsResult_append visitId rest db.favoriteItems _
             (fun f hf2 q hq => by
               have h1 : f.id = db.nextItemId := by
                 simp only [List.mem_singleton] at hf2
                 rw [hf2]
               have h2 := hpkI q hq
               omega)]
        simp only [uItemsResult, uNewItems, uItemsPhotoResult, uNewNestedPhotos, hd,
          Bool.false_eq_true, if_false, List.append_assoc, List.singleton_append,
          List.length_cons]
        simp [Store.mk.injEq]
        omega
    | initial pk d =>
      have hpkI' : ∀ q ∈ uItemPks rest, q < db.nextItemId :=
        fun q hq => hpkI q (List.mem_cons_of_mem _ hq)
      have hpk_not : pk ∉ uItemPks rest := (List.nodup_cons.mp hnd).1
      have hnd' : (uItemPks rest).Nodup := (List.nodup_cons.mp hnd).2
      have hpkPhead : ∀ q ∈ uInitialPks nested, q < db.nextItemPhotoId :=
        fun q hq => hpkP ⟨UFormEntry.initial pk d, nested⟩ (List.mem_cons_self _ rest) q hq
      by_cases hd : d.delete
      · rw [show uSaveItemsA visitId (⟨.initial pk d, nested⟩ :: rest) db =
              (if d.delete then
                 uSaveItemsA visitId rest
                   { db with
                       favoriteItems := db.favoriteItems.filter (fun f => f.id != pk),
                       itemPhotos := db.itemPhotos.filter (fun p => p.favoriteItemId != pk) }
               else
                 uSaveItemsA visitId rest
                   (uSaveItemPhotoFormset pk nested
                     { db with favoriteItems := db.favoriteItems.map (fun f =>
                         if f.id == pk then { f with visitId := visitId, name := d.name, price := d.price.getD 0, rating := d.rating.getD 0, description := d.description }
                         else f) })) from rfl, if_pos hd]
        rw [ih { db with
                   favoriteItems := db.favoriteItems.filter (fun f => f.id != pk),
                   itemPhotos := db.itemPhotos.filter (fun p => p.favoriteItemId != pk) }
              hpkI' hnd' hpkP']
        dsimp only
        simp only [uItemsResult, uNewItems, uItemsPhotoResult, uNewNestedPhotos, hd, if_true]
      · rw [show uSaveItemsA visitId (⟨.initial pk d, nested⟩ :: rest) db =
              (if d.delete then
                 uSaveItemsA visitId rest
                   { db with
                       favoriteItems := db.favoriteItems.filter (fun f => f.id != pk),
                       itemPhotos := db.itemPhotos.filter (fun p => p.favoriteItemId != pk) }
               else
                 uSaveItemsA visitId rest
                   (uSaveItemPhotoFormset pk nested
                     { db with favoriteItems := db.favoriteItems.map (fun f =>
                         if f.id == pk then { f with visitId := visitId, name := d.name, price := d.price.getD 0, rating := d.rating.getD 0, description := d.description }
                         else f) })) from rfl, if_neg hd]
        rw [uSaveItemPhotoFormset_eq pk nested
              { db with favoriteItems := db.favoriteItems.map (fun f =>
                  if f.id == pk then { f with visitId := visitId, name := d.name, price := d.price.getD 0, rating := d.rating.getD 0, description := d.description }
                  else f) } hpkPhead]
        dsimp only
        rw [ih { db with
                   favoriteItems := db.favoriteItems.map (fun f =>
                     if f.id == pk then { f with visitId := visitId, name := d.name, price := d.price.getD 0, rating := d.rating.getD 0, description := d.description }
                     else f),
                   itemPhotos := uItemPhotoResult nested db.itemPhotos ++
                     uNewItemPhotos pk db.nextItemPhotoId nested,
                   nextItemPhotoId := db.nextItemPhotoId +
                     (uNewItemPhotos pk db.nextItemPhotoId nested).length }
              hpkI' hnd'
              (fun e2 he2 q hq =>
                Nat.lt_of_lt_of_le (hpkP' e2 he2 q hq) (Nat.le_add_right _ _))]
        dsimp only
        rw [uItemsPhotoResult_append rest (uItemPhotoResult nested db.itemPhotos)
              (uNewItemPhotos pk db.nextItemPhotoId nested)
              (fun p hp e2 he2 q hq => by
                have hlb := uNewItemPhotos_id_lb pk nested db.nextItemPhotoId p hp
                have hub := hpkP' e2 he2 q hq
                omega)
              (fun p hp q hq => by
                rw [uNewItemPhotos_fk pk nested db.nextItemPhotoId p hp]
                exact fun h => hpk_not (h ▸ hq))]
        simp only [uItemsResult, uNewItems, uItemsPhotoResult, uNewNestedPhotos, hd,
          Bool.false_eq_true, if_false, List.append_assoc, List.length_append]
        simp [Store.mk.injEq]
        omega

/-- Full case analysis of VisitUpdateView: either the run leaves the store
untouched and does not answer with the success redirect, or it answers with
the redirect to the target visit and — for a consistent request — leaves
exactly the expected update store. -/
theorem visitUpdatePost_cases (db : Store) (visitPk : Nat) (ureq : UARequest) :
    ((visitUpdatePost db visitPk ureq).2 = db ∧
       ∀ vid, (visitUpdatePost db visitPk ureq).1 ≠ .redirect vid) ∨
    ((visitUpdatePost db visitPk ureq).1 = .redirect visitPk ∧
       (uRequestConsistent db ureq →
          (visitUpdatePost db visitPk ureq).2 = uSuccessStore db visitPk ureq)) := by
  unfold visitUpdatePost
  cases hv : findVisitById db visitPk with
  | none => exact Or.inl ⟨rfl, by simp⟩
  | some visit =>
    have hvid : visit.id = visitPk := findVisitById_id hv
    dsimp only
    by_cases h1 : visitFormIsValid ureq.visitForm
    case neg => rw [if_pos (by simp [h1])]; exact Or.inl ⟨rfl, by simp⟩
    rw [if_neg (by simp [h1])]
    by_cases h2 : uVisitPhotoFormSetIsValid ureq.visitPhotos
    case neg => rw [if_pos (by simp [h2])]; exact Or.inl ⟨rfl, by simp⟩
    rw [if_neg (by simp [h2])]
    by_cases h3 : uFavoriteItemFormSetIsValid (ureq.items.map (fun e => e.form))
    case neg => rw [if_pos (by simp [h3])]; exact Or.inl ⟨rfl, by simp⟩
    rw [if_neg (by simp [h3])]
    cases hnc : uCheckNestedFormsets 0 ureq.items with
    | mk b l =>
      cases b with
      | false => exact Or.inl ⟨rfl, by simp⟩
      | true =>
        dsimp only
        cases hdt : ureq.visitForm.dateVisited with
        | none => exact Or.inl ⟨rfl, by simp⟩
        | some dt =>
          cases hr : ureq.visitForm.userRating with
          | none => exact Or.inl ⟨rfl, by simp⟩
          | some r =>
            cases ha : ureq.visitForm.amountSpent with
            | none => exact Or.inl ⟨rfl, by simp⟩
            | some a =>
              right
              refine ⟨by dsimp only; rw [hvid], ?_⟩
              intro hcons
              obtain ⟨hc1, hc2, hc3, hc4⟩ := hcons
              dsimp only
              rw [uSaveVisitPhotoFormset_eq visit.id ureq.visitPhotos
                    { db with visits := db.visits.map (fun v2 =>
                        if v2.id == visit.id then { v2 with dateVisited := dt, userRating := r, amountSpent := a, notes := ureq.visitForm.notes }
                        else v2) } hc1]
              dsimp only
              rw [uSaveItemsA_eq visit.id ureq.items
                    { db with
                        visits := db.visits.map (fun v2 =>
                          if v2.id == visit.id then { v2 with dateVisited := dt, userRating := r, amountSpent := a, notes := ureq.visitForm.notes }
                          else v2),
                        visitPhotos := uPhotoResult ureq.visitPhotos db.visitPhotos ++
                          uNewVisitPhotos visit.id db.nextVisitPhotoId ureq.visitPhotos,
                        nextVisitPhotoId := db.nextVisitPhotoId +
                          (uNewVisitPhotos visit.id db.nextVisitPhotoId ureq.visitPhotos).length }
                    hc2 hc3 hc4]
              dsimp only
              rw [hvid]
              simp only [uSuccessStore, hdt, hr, ha, Option.getD_some]

/-! ## Claim theorems -/

/-- Claim C5: for every sticker Update request in which any one of the four
numeric fields (x, y, rotation, scale) is absent or non-numeric, the
operation is rejected with the 400 error response and the store — in
particular the targeted Sticker's persisted fields — is exactly as before
the request. -/
theorem update_sticker_missing_field_rejected
    (db : Store) (data : Dict)
    (h : pyFloat (dget data "x") = none ∨ pyFloat (dget data "y") = none ∨
         pyFloat (dget data "rotation") = none ∨ pyFloat (dget data "scale") = none) :
    updateStickerPost db (some data) = (.error 400, db) := by
  unfold updateStickerPost
  dsimp only
  cases hs : findStickerByPk db (dget data "sticker_id") with
  | none => rfl
  | some sticker =>
    dsimp only
    cases hx : pyFloat (dget data "x") with
    | none => rfl
    | some x =>
      cases hy : pyFloat (dget data "y") with
      | none => rfl
      | some y =>
        cases hr : pyFloat (dget data "rotation") with
        | none => rfl
        | some r =>
          cases hc : pyFloat (dget data "scale") with
          | none => rfl
          | some c => rcases h with h | h | h | h <;> simp_all

/-- Concrete check for C5: a body with sticker_id, x, y and scale but no
rotation is rejected with 400 and the store is unchanged. -/
theorem update_sticker_missing_field_rejected_witness :
    pyFloat (dget [("sticker_id", JVal.num 1), ("x", JVal.num 3),
                   ("y", JVal.num 4), ("scale", JVal.num 2)] "rotation") = none ∧
    updateStickerPost sampleStore
        (some [("sticker_id", JVal.num 1), ("x", JVal.num 3),
               ("y", JVal.num 4), ("scale", JVal.num 2)]) =
      (.error 400, sampleStore) :=
  ⟨rfl, update_sticker_missing_field_rejected sampleStore _
      (Or.inr (Or.inr (Or.inl rfl)))⟩

/-- Claim C6: a sticker Place request whose payload resolves a Visit and a
StickerType and supplies x and y but omits rotation and scale creates a
Sticker with rotation 0.0 and scale 1.0, copies the StickerType's image
into it, and answers with the new Sticker's identifier; with x and y also
omitted they default to 0.0. -/
theorem place_sticker_defaults
    (db : Store) (vq : ℚ) (tn : String) (x y : ℚ) (visit : Visit) (stype : StickerType)
    (hv : findVisitByPk db (.num vq) = some visit)
    (ht : findStickerTypeByName db (.str tn none) = some stype) :
    placeStickerPost db (some (placeBody vq tn x y)) =
      (.success db.nextStickerId,
       { db with
           stickers := db.stickers ++
             [{ id := db.nextStickerId, visitId := visit.id, typeId := stype.id,
                xPosition := x, yPosition := y, rotation := 0, scale := 1,
                image := some stype.image }],
           nextStickerId := db.nextStickerId + 1 }) ∧
    placeStickerPost db (some (placeBodyMin vq tn)) =
      (.success db.nextStickerId,
       { db with
           stickers := db.stickers ++
             [{ id := db.nextStickerId, visitId := visit.id, typeId := stype.id,
                xPosition := 0, yPosition := 0, rotation := 0, scale := 1,
                image := some stype.image }],
           nextStickerId := db.nextStickerId + 1 }) := by
  constructor
  · unfold placeStickerPost
    dsimp only
    rw [show pyFloat (dgetD (placeBody vq tn x y) "x" (.num 0)) = some x from rfl,
        show pyFloat (dgetD (placeBody vq tn x y) "y" (.num 0)) = some y from rfl,
        show pyFloat (dgetD (placeBody vq tn x y) "rotation" (.num 0)) = some 0 from rfl,
        show pyFloat (dgetD (placeBody vq tn x y) "scale" (.num 1)) = some 1 from rfl]
    dsimp only
    rw [show dget (placeBody vq tn x y) "visit_id" = .num vq from rfl, hv]
    dsimp only
    rw [show dget (placeBody vq tn x y) "sticker_type" = .str tn none from rfl, ht]
  · unfold placeStickerPost
    dsimp only
    rw [show pyFloat (dgetD (placeBodyMin vq tn) "x" (.num 0)) = some 0 from rfl,
        show pyFloat (dgetD (placeBodyMin vq tn) "y" (.num 0)) = some 0 from rfl,
        show pyFloat (dgetD (placeBodyMin vq tn) "rotation" (.num 0)) = some 0 from rfl,
        show pyFloat (dgetD (placeBodyMin vq tn) "scale" (.num 1)) = some 1 from rfl]
    dsimp only
    rw [show dget (placeBodyMin vq tn) "visit_id" = .num vq from rfl, hv]
    dsimp only
    rw [show dget (placeBodyMin vq tn) "sticker_type" = .str tn none from rfl, ht]

/-- Concrete check for C6: placing a heart sticker at x 10, y 20 with no
rotation or scale in the body yields rotation 0 and scale 1 and returns the
fresh id 2. -/
theorem place_sticker_defaults_witness :
    findVisitByPk sampleStore (.num 1) = some sampleVisit ∧
    findStickerTypeByName sampleStore (.str "heart" none) = some sampleStickerType ∧
    placeStickerPost sampleStore (some (placeBody 1 "heart" 10 20)) =
      (.success 2,
       { sampleStore with
           stickers := sampleStore.stickers ++
             [{ id := 2, visitId := 1, typeId := 1, xPosition := 10, yPosition := 20,
                rotation := 0, scale := 1, image := some "heart.png" }],
           nextStickerId := 3 }) :=
  ⟨rfl, rfl,
   (place_sticker_defaults sampleStore 1 "heart" 10 20 sampleVisit sampleStickerType
      rfl rfl).1⟩

/-- Claim C9: a sticker Delete request whose JSON body lacks sticker_id is
answered with HttpResponseBadRequest (HTTP 400), not a NotFound, and
deletes nothing; a request whose sticker_id resolves to a stored Sticker
deletes that row and answers with the success acknowledgment. -/
theorem sticker_delete_contract (db : Store) (data : Dict) :
    (dget data "sticker_id" = .null →
       stickerDeletePost db (some data) = (.badRequest, db)) ∧
    (∀ (q : ℚ) (s : Sticker), dget data "sticker_id" = .num q → q ≠ 0 →
       findStickerByPk db (.num q) = some s →
       stickerDeletePost db (some data) =
         (.success, { db with stickers := db.stickers.filter (fun t => t.id != s.id) })) := by
  constructor
  · intro h
    unfold stickerDeletePost
    dsimp only
    rw [h]
    rfl
  · intro q s hq hq0 hfind
    unfold stickerDeletePost
    dsimp only
    rw [hq]
    have htr : truthy (.num q) = true := by simp [truthy, hq0]
    rw [if_neg (by simp [htr])]
    rw [hfind]

/-- Concrete check for C9: a body without sticker_id gives 400 leaving the
sample store alone, and sticker_id 1 deletes the stored sticker. -/
theorem sticker_delete_contract_witness :
    stickerDeletePost sampleStore (some [("other", JVal.num 1)]) =
      (.badRequest, sampleStore) ∧
    stickerDeletePost sampleStore (some [("sticker_id", JVal.num 1)]) =
      (.success,
       { sampleStore with
           stickers := sampleStore.stickers.filter (fun t => t.id != 1) }) :=
  ⟨(sticker_delete_contract sampleStore _).1 rfl,
   (sticker_delete_contract sampleStore _).2 1 sampleSticker rfl (by norm_num) rfl⟩

/-- Claim C10: a sticker Delete request whose sticker_id is present (truthy)
but resolves to no stored Sticker is answered by the generic JSON error with
HTTP status 500 — the Http404 of the lookup is swallowed by the surrounding
except Exception — and the store is unchanged. -/
theorem sticker_delete_not_found_500
    (db : Store) (data : Dict) (jv : JVal)
    (hp : dget data "sticker_id" = jv) (ht : truthy jv = true)
    (hf : findStickerByPk db jv = none) :
    stickerDeletePost db (some data) = (.error 500, db) := by
  unfold stickerDeletePost
  dsimp only
  rw [hp, if_neg (by simp [ht]), hf]

/-- Concrete check for C10: sticker_id 5 resolves to no sticker in the
sample store, and the response is the 500 error JSON with nothing deleted. -/
theorem sticker_delete_not_found_500_witness :
    findStickerByPk sampleStore (.num 5) = none ∧
    stickerDeletePost sampleStore (some [("sticker_id", JVal.num 5)]) =
      (.error 500, sampleStore) :=
  ⟨rfl, sticker_delete_not_found_500 sampleStore _ (.num 5) rfl rfl rfl⟩

/-- Claim C8: add-to-wishlist is idempotent — repeating the add for the same
(profile, cafe) pair leaves the store of the first add unchanged and answers
with the non-error info message, and the at-most-one-Wish-per-pair bound is
preserved. -/
theorem add_to_wishlist_idempotent
    (db : Store) (profileId cafePk : Nat) (cafe : Cafe)
    (hc : findCafeByPk db cafePk = some cafe) :
    (addToWishlistPost (addToWishlistPost db profileId cafePk).2 profileId cafePk).2 =
      (addToWishlistPost db profileId cafePk).2 ∧
    (addToWishlistPost (addToWishlistPost db profileId cafePk).2 profileId cafePk).1 =
      .info ∧
    (countWishes db profileId cafePk ≤ 1 →
       countWishes (addToWishlistPost db profileId cafePk).2 profileId cafePk ≤ 1) := by
  have hid := findCafeByPk_id hc
  subst hid
  by_cases hw : db.wishes.any (fun w => w.profileId == profileId && w.cafeId == cafe.id)
  · have h1 : addToWishlistPost db profileId cafe.id = (.info, db) := by
      unfold addToWishlistPost
      rw [hc]
      dsimp only
      rw [if_pos hw]
    refine ⟨by simp [h1], by simp [h1], fun h => by simp [h1]; exact h⟩
  · have h1 : addToWishlistPost db profileId cafe.id =
        (.success,
         { db with
             wishes := db.wishes ++
               [{ id := db.nextWishId, profileId := profileId,
                  cafeId := cafe.id, visited := false }],
             nextWishId := db.nextWishId + 1 }) := by
      unfold addToWishlistPost
      rw [hc]
      dsimp only
      rw [if_neg hw]
    have h2 : addToWishlistPost
        { db with
            wishes := db.wishes ++
              [{ id := db.nextWishId, profileId := profileId,
                 cafeId := cafe.id, visited := false }],
            nextWishId := db.nextWishId + 1 } profileId cafe.id =
        (.info,
         { db with
             wishes := db.wishes ++
               [{ id := db.nextWishId, profileId := profileId,
                  cafeId := cafe.id, visited := false }],
             nextWishId := db.nextWishId + 1 }) := by
      unfold addToWishlistPost
      rw [show findCafeByPk
            { db with
                wishes := db.wishes ++
                  [{ id := db.nextWishId, profileId := profileId,
                     cafeId := cafe.id, visited := false }],
                nextWishId := db.nextWishId + 1 } cafe.id = some cafe from hc]
      dsimp only
      rw [if_pos (by simp)]
    refine ⟨by rw [h1]; simp [h2], by rw [h1]; simp [h2], ?_⟩
    intro _
    have h0 : (db.wishes.filter
        (fun w => w.profileId == profileId && w.cafeId == cafe.id)).length = 0 := by
      rw [List.length_eq_zero, List.filter_eq_nil_iff]
      intro a ha hpa
      exact hw (List.any_eq_true.mpr ⟨a, ha, hpa⟩)
    rw [h1]
    unfold countWishes
    simp [List.filter_append, h0]

/-- Concrete check for C8: adding cafe 1 to profile 1's empty wishlist twice
ends in the state of the first add, the second answer is the info message,
and at most one Wish row for the pair exists afterwards. -/
theorem add_to_wishlist_idempotent_witness :
    findCafeByPk sampleStore 1 = some sampleCafe ∧
    countWishes sampleStore 1 1 ≤ 1 ∧
    (addToWishlistPost (addToWishlistPost sampleStore 1 1).2 1 1).2 =
      (addToWishlistPost sampleStore 1 1).2 ∧
    (addToWishlistPost (addToWishlistPost sampleStore 1 1).2 1 1).1 = .info ∧
    countWishes (addToWishlistPost sampleStore 1 1).2 1 1 ≤ 1 :=
  ⟨rfl, by decide,
   (add_to_wishlist_idempotent sampleStore 1 1 sampleCafe rfl).1,
   (add_to_wishlist_idempotent sampleStore 1 1 sampleCafe rfl).2.1,
   (add_to_wishlist_idempotent sampleStore 1 1 sampleCafe rfl).2.2 (by decide)⟩

/-- Claim C7: in Protocol B a favoriteItems entry whose name is missing or
empty is skipped entirely — the item loop treats any list with the entry at
its head exactly as the list without it (no FavoriteItem row, none of its
photos processed, no fault), and a whole request is answered identically
with the blank entry removed from the middle of the list, so the remaining
named entries persist exactly as before. -/
theorem protocolB_blank_item_skipped
    (db : Store) (profileId cafePk : Nat) (req : BRequest) (dyn : BDynamic)
    (pre post : List BItem) (it : BItem)
    (hname : it.name = none ∨ it.name = some "")
    (hdd : req.dynamicData = some (some dyn))
    (hfav : dyn.favoriteItems = pre ++ it :: post) :
    (∀ (db0 : Store) (vid : Nat) (l : List BItem),
       processItemsB req.files vid (it :: l) db0 =
         processItemsB req.files vid l db0) ∧
    logCafeVisitPost db profileId cafePk req =
      logCafeVisitPost db profileId cafePk (withFavoriteItems req dyn pre post) := by
  have hbl : itemNameBlank it = true := by
    rcases hname with h | h <;> simp [itemNameBlank, h]
  constructor
  · intro db0 vid l
    exact processItemsB_middle_skip req.files vid it hbl [] l db0
  · unfold logCafeVisitPost
    cases hcafe : findCafeByPk db cafePk with
    | none => rfl
    | some cafe =>
      dsimp only
      rw [hdd,
          show (withFavoriteItems req dyn pre post).dynamicData = some (some { dyn with favoriteItems := pre ++ post }) from rfl]
      dsimp only
      rw [show createVisitB db profileId cafe.id (withFavoriteItems req dyn pre post) = createVisitB db profileId cafe.id req from rfl]
      cases hcv : createVisitB db profileId cafe.id req with
      | error e => rfl
      | ok vdb =>
        obtain ⟨v, db1⟩ := vdb
        dsimp only
        rw [show (withFavoriteItems req dyn pre post).files = req.files from rfl,
            show ({ dyn with favoriteItems := pre ++ post } : BDynamic).visitPhotos = dyn.visitPhotos from rfl]
        cases hpv : processVisitPhotosB req.files v.id dyn.visitPhotos db1 with
        | error e => rfl
        | ok db2 =>
          dsimp only
          rw [hfav]
          rw [processItemsB_middle_skip req.files v.id it hbl pre post db2]

/-- Concrete check for C7: a request with a named and a blank item is
handled exactly like the request without the blank item, the loop skips the
blank item at the head of any list, and the run persists exactly one
FavoriteItem, named latte. -/
theorem protocolB_blank_item_skipped_witness :
    (processItemsB sampleBReq.files 7 [blankBItem] emptyStore =
       processItemsB sampleBReq.files 7 [] emptyStore) ∧
    logCafeVisitPost sampleStore 1 1 sampleBReq =
      logCafeVisitPost sampleStore 1 1
        (withFavoriteItems sampleBReq { visitPhotos := [], favoriteItems := [namedBItem, blankBItem] } [namedBItem] []) ∧
    ((logCafeVisitPost sampleStore 1 1 sampleBReq).2.favoriteItems.map
        (fun f => f.name)) = ["latte"] :=
  ⟨(protocolB_blank_item_skipped sampleStore 1 1 sampleBReq
      { visitPhotos := [], favoriteItems := [namedBItem, blankBItem] }
      [namedBItem] [] blankBItem (Or.inl rfl) rfl rfl).1 emptyStore 7 [],
   (protocolB_blank_item_skipped sampleStore 1 1 sampleBReq
      { visitPhotos := [], favoriteItems := [namedBItem, blankBItem] }
      [namedBItem] [] blankBItem (Or.inl rfl) rfl rfl).2,
   rfl⟩

/-- Claim C4: the persisted Visit's owner and cafe come only from the acting
user's profile and the route parameter — under both protocols two requests
differing solely in client-supplied profile/cafe body values are handled
identically, and every successful run stores the new visit with the acting
profile as owner and the route cafe. -/
theorem visit_owner_not_client_supplied
    (db : Store) (profileId cafePk : Nat) (areq : ARequest) (breq : BRequest)
    (p1 p2 c1 c2 : Option Nat) :
    visitCreatePost db profileId cafePk { areq with clientProfileId := p1, clientCafeId := c1 } =
      visitCreatePost db profileId cafePk { areq with clientProfileId := p2, clientCafeId := c2 } ∧
    logCafeVisitPost db profileId cafePk { breq with clientProfileId := p1, clientCafeId := c1 } =
      logCafeVisitPost db profileId cafePk { breq with clientProfileId := p2, clientCafeId := c2 } ∧
    (∀ vid, (visitCreatePost db profileId cafePk areq).1 = .redirect vid →
       ∃ v, v ∈ (visitCreatePost db profileId cafePk areq).2.visits ∧
         v.id = vid ∧ v.profileId = profileId ∧ v.cafeId = cafePk) ∧
    (∀ vid, (logCafeVisitPost db profileId cafePk breq).1 = .success vid →
       ∃ v, v ∈ (logCafeVisitPost db profileId cafePk breq).2.visits ∧
         v.id = vid ∧ v.profileId = profileId ∧ v.cafeId = cafePk) := by
  refine ⟨rfl, rfl, ?_, ?_⟩
  · intro vid hred
    rcases visitCreatePost_cases db profileId cafePk areq with ⟨h1, h2⟩ | ⟨h1, h2⟩
    · rw [h1] at hred
      injection hred with hvid
      rw [h2]
      refine ⟨{ id := db.nextVisitId, profileId := profileId, cafeId := cafePk,
                dateVisited := areq.visitForm.dateVisited.getD "",
                userRating := areq.visitForm.userRating.getD 0,
                amountSpent := areq.visitForm.amountSpent.getD 0,
                notes := areq.visitForm.notes }, ?_, hvid, rfl, rfl⟩
      simp [aSuccessStore]
    · exact absurd hred (h2 vid)
  · intro vid hsu
    rcases logCafeVisitPost_cases db profileId cafePk breq with ⟨h1, h2⟩ | ⟨h1, h2⟩
    · rw [h1] at hsu
      injection hsu with hvid
      rw [h2]
      cases hdd : breq.dynamicData with
      | none =>
        exfalso
        unfold logCafeVisitPost at h1
        cases hcafe : findCafeByPk db cafePk with
        | none => rw [hcafe] at h1; simp at h1
        | some cafe => rw [hcafe] at h1; dsimp only at h1; rw [hdd] at h1; simp at h1
      | some od =>
        cases od with
        | none =>
          exfalso
          unfold logCafeVisitPost at h1
          cases hcafe : findCafeByPk db cafePk with
          | none => rw [hcafe] at h1; simp at h1
          | some cafe => rw [hcafe] at h1; dsimp only at h1; rw [hdd] at h1; simp at h1
        | some dyn =>
          refine ⟨{ id := db.nextVisitId, profileId := profileId, cafeId := cafePk,
                    dateVisited := breq.dateVisited.getD "",
                    userRating := breq.userRating.getD 0,
                    amountSpent := breq.amountSpent.getD 0,
                    notes := breq.notes.getD "" }, ?_, hvid, rfl, rfl⟩
          simp [bSuccessStore, hdd]
    · exact absurd hsu (h2 vid)

/-- Concrete check for C4: the sample Protocol B request creates visit 2
owned by profile 1 at cafe 1, and planting junk profile/cafe values in the
body changes nothing about the outcome. -/
theorem visit_owner_not_client_supplied_witness :
    (logCafeVisitPost sampleStore 1 1 sampleBReq).1 = .success 2 ∧
    (∃ v, v ∈ (logCafeVisitPost sampleStore 1 1 sampleBReq).2.visits ∧
       v.id = 2 ∧ v.profileId = 1 ∧ v.cafeId = 1) ∧
    logCafeVisitPost sampleStore 1 1 { sampleBReq with clientProfileId := some 9, clientCafeId := some 9 } =
      logCafeVisitPost sampleStore 1 1 { sampleBReq with clientProfileId := some 8, clientCafeId := some 7 } :=
  ⟨rfl,
   (visit_owner_not_client_supplied sampleStore 1 1 badAReq sampleBReq
      (some 9) (some 8) (some 9) (some 7)).2.2.2 2 rfl,
   (visit_owner_not_client_supplied sampleStore 1 1 badAReq sampleBReq
      (some 9) (some 8) (some 9) (some 7)).2.1⟩

/-- Claim C1: the nested write is atomic under both protocols, for creation
and for update — whenever the response is not the success response the
store is exactly as before the request, and whenever it is, the store is
exactly the old store with the request's writes applied: for a creation the
new Visit with its VisitPhotos, FavoriteItems and ItemPhotos appended, for
an update (of a consistent request: distinct existing pks below their
autoincrement counters) the visit row overwritten and the sub-entity
deletes, overwrites and creations applied. -/
theorem nested_write_atomic
    (db : Store) (profileId cafePk : Nat) (areq : ARequest) (breq : BRequest)
    (visitPk : Nat) (ureq : UARequest) :
    ((∀ vid, (visitCreatePost db profileId cafePk areq).1 ≠ .redirect vid) →
       (visitCreatePost db profileId cafePk areq).2 = db) ∧
    (∀ vid, (visitCreatePost db profileId cafePk areq).1 = .redirect vid →
       (visitCreatePost db profileId cafePk areq).2 =
         aSuccessStore db profileId cafePk areq) ∧
    ((∀ vid, (logCafeVisitPost db profileId cafePk breq).1 ≠ .success vid) →
       (logCafeVisitPost db profileId cafePk breq).2 = db) ∧
    (∀ vid, (logCafeVisitPost db profileId cafePk breq).1 = .success vid →
       (logCafeVisitPost db profileId cafePk breq).2 =
         bSuccessStore db profileId cafePk breq) ∧
    ((∀ vid, (visitUpdatePost db visitPk ureq).1 ≠ .redirect vid) →
       (visitUpdatePost db visitPk ureq).2 = db) ∧
    (uRequestConsistent db ureq →
       ∀ vid, (visitUpdatePost db visitPk ureq).1 = .redirect vid →
         (visitUpdatePost db visitPk ureq).2 = uSuccessStore db visitPk ureq) := by
  refine ⟨?_, ?_, ?_, ?_, ?_, ?_⟩
  · intro hno
    rcases visitCreatePost_cases db profileId cafePk areq with ⟨a1, a2⟩ | ⟨a1, a2⟩
    · exact absurd a1 (hno _)
    · exact a1
  · intro vid hred
    rcases visitCreatePost_cases db profileId cafePk areq with ⟨a1, a2⟩ | ⟨a1, a2⟩
    · exact a2
    · exact absurd hred (a2 vid)
  · intro hno
    rcases logCafeVisitPost_cases db profileId cafePk breq with ⟨b1, b2⟩ | ⟨b1, b2⟩
    · exact absurd b1 (hno _)
    · exact b1
  · intro vid hsu
    rcases logCafeVisitPost_cases db profileId cafePk breq with ⟨b1, b2⟩ | ⟨b1, b2⟩
    · exact b2
    · exact absurd hsu (b2 vid)
  · intro hno
    rcases visitUpdatePost_cases db visitPk ureq with ⟨u1, u2⟩ | ⟨u1, u2⟩
    · exact u1
    · exact absurd u1 (hno _)
  · intro hcons vid hred
    rcases visitUpdatePost_cases db visitPk ureq with ⟨u1, u2⟩ | ⟨u1, u2⟩
    · exact absurd hred (u2 vid)
    · exact u2 hcons

/-- Concrete check for C1: the sample Protocol B request succeeds and lands
exactly in the expected success store; an invalid Protocol A submission
re-renders with form errors and leaves the store untouched; and the sample
update — overwriting the stored photo and item, deleting the item's photo,
adding a photo, an item photo and an item — succeeds and lands exactly in
the expected update store, whose rows are checked literally. -/
theorem nested_write_atomic_witness :
    (logCafeVisitPost sampleStore 1 1 sampleBReq).1 = .success 2 ∧
    (logCafeVisitPost sampleStore 1 1 sampleBReq).2 =
      bSuccessStore sampleStore 1 1 sampleBReq ∧
    (visitCreatePost sampleStore 1 1 badAReq).1 = .formErrors ∧
    (visitCreatePost sampleStore 1 1 badAReq).2 = sampleStore ∧
    (visitUpdatePost updStore 1 ureqSample).1 = .redirect 1 ∧
    (visitUpdatePost updStore 1 ureqSample).2 = uSuccessStore updStore 1 ureqSample ∧
    (visitUpdatePost updStore 1 ureqSample).2.visitPhotos =
      [{ id := 1, visitId := 1, image := "new.jpg", caption := "updated" },
       { id := 2, visitId := 1, image := "extra.jpg", caption := "" }] ∧
    (visitUpdatePost updStore 1 ureqSample).2.favoriteItems.map (fun f => f.name) =
      ["flat white", "bun"] ∧
    (visitUpdatePost updStore 1 ureqSample).2.itemPhotos =
      [{ id := 2, favoriteItemId := 1, image := "fresh.jpg", caption := "" }] :=
  ⟨rfl,
   (nested_write_atomic sampleStore 1 1 badAReq sampleBReq 1 ureqSample).2.2.2.1 2 rfl,
   rfl,
   (nested_write_atomic sampleStore 1 1 badAReq sampleBReq 1 ureqSample).1
     (by
       intro vid h
       rw [show (visitCreatePost sampleStore 1 1 badAReq).1 = AResp.formErrors from rfl] at h
       exact absurd h (by simp)),
   rfl,
   (nested_write_atomic updStore 1 1 badAReq sampleBReq 1 ureqSample).2.2.2.2.2
     (by refine ⟨by decide, by decide, by decide, by decide⟩) 1 rfl,
   rfl, rfl, rfl⟩

/-- Counterexample to claim C2 as stated: both items of c2Req are non-deleted
and both have invalid nested photo formsets, yet the validation pass of
VisitCreateView.form_valid inspects only item 0 — the response carries the
inspected trace [0] and item 1 is not in it, so the error report cannot
carry item 1's nested errors from this pass. -/
theorem nested_validation_counterexample :
    itemEntryDeleted itemEntryOne = false ∧
    itemPhotoFormSetIsValid itemEntryOne.nestedPhotos = false ∧
    itemEntryDeleted itemEntryTwo = false ∧
    itemPhotoFormSetIsValid itemEntryTwo.nestedPhotos = false ∧
    visitCreatePost sampleStore 1 1 c2Req = (.nestedErrors [0], sampleStore) ∧
    ¬ (1 ∈ [0]) := by
  refine ⟨rfl, by decide, rfl, by decide, by decide, by decide⟩

/-- Claim C2, corrected: the nested-photo validation pass of Protocol A is
not exhaustive — it walks the non-deleted items in order and breaks at the
first one whose nested photo formset is invalid, so only the items up to
and including that first failing one are inspected, whatever comes after
it, and the error response reflects exactly that prefix. -/
theorem nested_validation_short_circuits
    (db : Store) (profileId cafePk : Nat) (cafe : Cafe) (req : ARequest)
    (pre post : List ItemEntry) (e : ItemEntry)
    (hitems : req.items = pre ++ e :: post)
    (hpre : ∀ x ∈ pre, itemEntryDeleted x = true ∨
       itemPhotoFormSetIsValid x.nestedPhotos = true)
    (he1 : itemEntryDeleted e = false)
    (he2 : itemPhotoFormSetIsValid e.nestedPhotos = false)
    (hcafe : findCafeByPk db cafePk = some cafe)
    (hvf : visitFormIsValid req.visitForm = true)
    (hvp : visitPhotoFormSetIsValid req.visitPhotos = true)
    (hfi : favoriteItemFormSetIsValid (req.items.map (fun x => x.form)) = true) :
    checkNestedFormsets 0 req.items =
      (false, nonDeletedIndices 0 pre ++ [pre.length]) ∧
    visitCreatePost db profileId cafePk req =
      (.nestedErrors (nonDeletedIndices 0 pre ++ [pre.length]), db) := by
  have htr : checkNestedFormsets 0 req.items =
      (false, nonDeletedIndices 0 pre ++ [pre.length]) := by
    rw [hitems]
    have h := checkNestedFormsets_break e post he1 he2 pre 0 hpre
    simpa using h
  refine ⟨htr, ?_⟩
  unfold visitCreatePost
  rw [hcafe]
  dsimp only
  rw [if_neg (by simp [hvf]), if_neg (by simp [hvp]), if_neg (by simp [hfi]), htr]

/-- Concrete check for the corrected C2: with a valid-nested item first and
two invalid-nested items after it, the pass inspects items 0 and 1 only and
the response carries exactly that trace. -/
theorem nested_validation_short_circuits_witness :
    checkNestedFormsets 0 c2wReq.items =
      (false, nonDeletedIndices 0 [okItemEntry] ++ [List.length [okItemEntry]]) ∧
    visitCreatePost sampleStore 1 1 c2wReq =
      (.nestedErrors (nonDeletedIndices 0 [okItemEntry] ++ [List.length [okItemEntry]]),
       sampleStore) :=
  nested_validation_short_circuits sampleStore 1 1 sampleCafe c2wReq
    [okItemEntry] [itemEntryOne] itemEntryTwo rfl (by decide) rfl (by decide)
    rfl (by decide) (by decide) (by decide)

/-- Claim C3, on the code as written: forms.py documents VisitPhotoFormSet
as max five photos per visit and the spec requires a six-photo submission
to be rejected with nothing persisted, but inlineformset_factory is called
without validate_max, so the bound is only advisory (Django enforces just
absolute_max = 1005 on bound data): the six-photo submission validates,
would be rejected if validate_max were set, and the request succeeds
persisting all six VisitPhoto rows. -/
theorem six_visit_photos_accepted :
    sixPhotos.length = 6 ∧
    visitPhotoFormSetCfg.maxNum = 5 ∧
    visitPhotoFormSetIsValid sixPhotos = true ∧
    formsetIsValid { maxNum := 5, validateMax := true } photoFormIsValid
      (fun d => d.delete) sixPhotos = false ∧
    (visitCreatePost sampleStore 1 1 c3Req).1 = .redirect 2 ∧
    (visitCreatePost sampleStore 1 1 c3Req).2.visitPhotos.length = 6 := by
  refine ⟨by decide, rfl, by decide, by decide, by decide, by decide⟩

end CafePassport
